import Mathlib

/-!
A shallow embedding of the replica-set client core of this repository
(`pymongo/mongo_replica_set_client.py` and `pymongo/pool.py`), together with
theorems checking the natural-language specification against the code.

Conventions of the embedding:

* Python dicts are association lists (`alookup` / `ainsert` / `aupdate`);
  ordering of entries is irrelevant to every property proved here.
* Machine-level effects (sockets, time, the network) are oracles passed as
  parameters: a probe oracle for `ismaster` round trips, booleans for connect
  success and the `select()` readiness poll, an `Int` for the current time.
* Fallible Python code (`raise`) is modelled with `Option` / `Except`.
* Components imported from modules that are not part of this repository slice
  (`pymongo.read_preferences`, `pymongo.thread_util`, `pymongo.helpers`) are
  modelled from the specification; each such definition carries a doc comment
  starting with "Modelled from the spec".
-/

set_option maxRecDepth 4000

namespace MongoRS

/-! ## Association-list helpers (Python dict semantics) -/

/-- Lookup in an association list, first match wins (Python `dict.get`). -/
def alookup {α β : Type} [DecidableEq α] : List (α × β) → α → Option β
  | [], _ => none
  | (k, v) :: rest, a => if k = a then some v else alookup rest a

/-- Remove every binding of `k` (helper for `ainsert`). -/
def aremove {α β : Type} [DecidableEq α] : List (α × β) → α → List (α × β)
  | [], _ => []
  | (k', v) :: rest, k =>
    if k' = k then aremove rest k else (k', v) :: aremove rest k

/-- Dict assignment `d[k] = v`: replaces any existing binding of `k`. -/
def ainsert {α β : Type} [DecidableEq α] (l : List (α × β)) (k : α) (v : β) :
    List (α × β) :=
  (k, v) :: aremove l k

/-- Value update at every occurrence of a key, keeping list order (models a
Python dict value replacement; keys of well-formed dicts occur once). -/
def aupdate {α β : Type} [DecidableEq α] : List (α × β) → α → β → List (α × β)
  | [], _, _ => []
  | (k', v') :: rest, k, v =>
    if k' = k then (k, v) :: aupdate rest k v else (k', v') :: aupdate rest k v

theorem alookup_ainsert_self {α β : Type} [DecidableEq α]
    (l : List (α × β)) (k : α) (v : β) : alookup (ainsert l k v) k = some v := by
  simp [ainsert, alookup]

theorem alookup_aremove_ne {α β : Type} [DecidableEq α]
    (l : List (α × β)) (k a : α) (h : a ≠ k) :
    alookup (aremove l k) a = alookup l a := by
  induction l with
  | nil => rfl
  | cons p rest ih =>
    obtain ⟨pk, pv⟩ := p
    by_cases hk : pk = k
    · have hne : ¬(pk = a) := fun hpa => h (hpa ▸ hk)
      simp [alookup, aremove, hk, hne, ih, Ne.symm h]
    · by_cases ha : pk = a
      · simp [alookup, aremove, hk, ha, h]
      · simp [alookup, aremove, hk, ha, ih]

theorem alookup_ainsert_ne {α β : Type} [DecidableEq α]
    (l : List (α × β)) (k a : α) (v : β) (h : a ≠ k) :
    alookup (ainsert l k v) a = alookup l a := by
  have hne : ¬(k = a) := fun hk => h hk.symm
  simp only [ainsert, alookup, hne, if_false]
  exact alookup_aremove_ne l k a h

theorem alookup_aupdate_self {α β : Type} [DecidableEq α]
    (l : List (α × β)) (k : α) (v w : β) (h : alookup l k = some w) :
    alookup (aupdate l k v) k = some v := by
  induction l with
  | nil => simp [alookup] at h
  | cons p rest ih =>
    obtain ⟨pk, pv⟩ := p
    by_cases hk : pk = k
    · simp [alookup, aupdate, hk]
    · simp only [alookup, hk, if_false] at h
      simp [alookup, aupdate, hk, ih h]

theorem alookup_aupdate_ne {α β : Type} [DecidableEq α]
    (l : List (α × β)) (k a : α) (v : β) (h : a ≠ k) :
    alookup (aupdate l k v) a = alookup l a := by
  induction l with
  | nil => rfl
  | cons p rest ih =>
    obtain ⟨pk, pv⟩ := p
    by_cases hk : pk = k
    · have hne : ¬(pk = a) := fun hpa => h (hpa ▸ hk)
      have hka : ¬(k = a) := fun hk2 => h hk2.symm
      simp [alookup, aupdate, hk, hne, hka, ih]
    · by_cases ha : pk = a
      · simp [alookup, aupdate, hk, ha, h]
      · simp [alookup, aupdate, hk, ha, ih]

/-! ## `_partition_node` (mongo_replica_set_client.py, lines 94-105) -/

/-- Numeric value of a digit string (most significant digit first). -/
def digitsVal (l : List Char) : Nat :=
  l.foldl (fun acc d => acc * 10 + (d.toNat - '0'.toNat)) 0

/-- Python `int(s)` on a string: optional surrounding whitespace, an optional
sign, then one or more decimal digits; any other input raises `ValueError`,
modelled as `none`. -/
def pyInt (s : List Char) : Option Int :=
  let t := ((s.dropWhile (fun c => c = ' ')).reverse.dropWhile
    (fun c => c = ' ')).reverse
  match t with
  | [] => none
  | c :: rest =>
    let signDigits : Bool × List Char :=
      if c = '-' then (true, rest)
      else if c = '+' then (false, rest) else (false, c :: rest)
    if signDigits.2 ≠ [] ∧ signDigits.2.all (fun d => d.isDigit) then
      some (if signDigits.1 then -(digitsVal signDigits.2 : Int)
            else (digitsVal signDigits.2 : Int))
    else none

/-- Index of the last `':'` in the string, as Python `str.rfind(':')`
(`none` models the return value `-1`). -/
def rfindColon : List Char → Option Nat
  | [] => none
  | c :: cs =>
    match rfindColon cs with
    | some i => some (i + 1)
    | none => if c = ':' then some 0 else none

/-- The final bracket-stripping step of `_partition_node`:
`if host.startswith('['): host = host[1:-1]`. -/
def stripBrackets (host : List Char) : List Char :=
  if host.head? = some '[' then (host.drop 1).dropLast else host

/-- `_partition_node(node)`: split a `host:port` string returned from the
server into a `(host, port)` pair.  The port (text after the last `':'`) goes
through `int()`, whose `ValueError` is modelled as `none`; with no `':'` the
port defaults to 27017. -/
def partition_node (node : List Char) : Option (List Char × Int) :=
  match rfindColon node with
  | none => some (stripBrackets node, 27017)
  | some idx =>
    match pyInt (node.drop (idx + 1)) with
    | none => none
    | some port => some (stripBrackets (node.take idx), port)

theorem rfindColon_eq_none (l : List Char) (h : ':' ∉ l) :
    rfindColon l = none := by
  induction l with
  | nil => rfl
  | cons c cs ih =>
    have hc : ¬(c = ':') := fun hc => h (hc ▸ List.mem_cons_self c cs)
    have hcs : ':' ∉ cs := fun hm => h (List.mem_cons_of_mem c hm)
    simp [rfindColon, ih hcs, hc]

theorem rfindColon_append (hs ps : List Char) (h : ':' ∉ ps) :
    rfindColon (hs ++ ':' :: ps) = some hs.length := by
  induction hs with
  | nil => simp [rfindColon, rfindColon_eq_none ps h]
  | cons c cs ih => simp [rfindColon, ih]

theorem dropWhile_not_space (l : List Char) (h : ∀ c ∈ l, c.isDigit = true) :
    l.dropWhile (fun c => c = ' ') = l := by
  cases l with
  | nil => rfl
  | cons c cs =>
    have hd : c.isDigit = true := h c (List.mem_cons_self c cs)
    have hc : ¬(c = ' ') := by
      intro hsp
      rw [hsp] at hd
      exact absurd hd (by decide)
    simp [List.dropWhile_cons, hc]

theorem pyInt_digits (l : List Char) (h1 : l ≠ [])
    (h2 : ∀ c ∈ l, c.isDigit = true) :
    pyInt l = some (digitsVal l : Int) := by
  have h2r : ∀ c ∈ l.reverse, c.isDigit = true := by
    intro c hc
    exact h2 c (List.mem_reverse.1 hc)
  have hstrip :
      ((l.dropWhile (fun c => c = ' ')).reverse.dropWhile
        (fun c => c = ' ')).reverse = l := by
    rw [dropWhile_not_space l h2, dropWhile_not_space l.reverse h2r,
      List.reverse_reverse]
  obtain ⟨c, cs, hl⟩ := List.exists_cons_of_ne_nil h1
  subst hl
  have hd : c.isDigit = true := h2 c (List.mem_cons_self c cs)
  have hminus : ¬(c = '-') := by
    intro hq
    rw [hq] at hd
    exact absurd hd (by decide)
  have hplus : ¬(c = '+') := by
    intro hq
    rw [hq] at hd
    exact absurd hd (by decide)
  have h2cs : ∀ x ∈ cs, x.isDigit = true := by
    intro x hx
    exact h2 x (List.mem_cons_of_mem c hx)
  simp only [pyInt]
  rw [hstrip]
  simp [hminus, hplus, hd]
  exact h2cs

theorem partition_node_split (hs ps : List Char) (h1 : ps ≠ [])
    (h2 : ∀ c ∈ ps, c.isDigit = true) (h3 : ':' ∉ ps) :
    partition_node (hs ++ ':' :: ps) =
      some (stripBrackets hs, (digitsVal ps : Int)) := by
  have hassoc : hs ++ ':' :: ps = (hs ++ [':']) ++ ps := by simp
  have hdrop : (hs ++ ':' :: ps).drop (hs.length + 1) = ps := by
    rw [hassoc]
    have hlen : (hs ++ [':']).length = hs.length + 1 := by simp
    rw [← hlen, List.drop_left]
  have htake : (hs ++ ':' :: ps).take hs.length = hs := List.take_left hs _
  rw [partition_node, rfindColon_append hs ps h3]
  simp only [hdrop, htake, pyInt_digits ps h1 h2]

/-- C8 counterexample: on a bracketed IPv6 literal with no explicit port the
last colon lies inside the brackets, so `int("1]")` raises `ValueError`
instead of producing `("::1", 27017)`. -/
theorem partition_node_bracketed_no_port :
    partition_node "[::1]".toList = none ∧
      partition_node "[::1]".toList ≠ some ("::1".toList, (27017 : Int)) := by
  constructor
  · rfl
  · intro h
    simp [partition_node] at h
    revert h
    decide

/-- C8 amended: a trailing `":<digits>"` suffix yields that port number with
brackets stripped from the part before the final colon (in particular a
bracketed IPv6 literal with an explicit port), and a string containing no
colon yields port 27017 with brackets stripped; but a bracketed literal
without a port is not handled (see the counterexample). -/
theorem partition_node_amended (hs ps ns : List Char) (h1 : ps ≠ [])
    (h2 : ∀ c ∈ ps, c.isDigit = true) (h3 : ':' ∉ ps) (h4 : ':' ∉ ns) :
    partition_node (hs ++ ':' :: ps) =
        some (stripBrackets hs, (digitsVal ps : Int)) ∧
      partition_node ns = some (stripBrackets ns, 27017) := by
  refine ⟨partition_node_split hs ps h1 h2 h3, ?_⟩
  rw [partition_node, rfindColon_eq_none ns h4]

/-- C8 witness: the amended statement evaluated on the bracketed IPv6 literal
`"[::1]:27018"` and the portless host `"example"`. -/
theorem partition_node_amended_witness :
    partition_node ("[::1]".toList ++ ':' :: "27018".toList) =
        some (stripBrackets "[::1]".toList, (digitsVal "27018".toList : Int)) ∧
      partition_node "example".toList =
        some (stripBrackets "example".toList, 27017) :=
  partition_node_amended "[::1]".toList "27018".toList "example".toList
    (by decide) (by decide) (by decide) (by decide)

/-! ## Members and replica-set state (mongo_replica_set_client.py) -/

/-- An endpoint: a `(host, port)` pair. -/
abbrev Host : Type := List Char × Int

/-- The fields of an `ismaster` response that the client consumes.  Absent
optional keys are `none`; `secondary` uses `.get` in the source, so an absent
key behaves as `false`.  Raw `hosts` / `passives` / `arbiters` strings are
parsed with `partition_node` by `refresh`. -/
structure IsMasterResponse : Type where
  ismaster : Bool
  secondary : Bool
  setName : Option String
  hosts : Option (List (List Char))
  passives : Option (List (List Char))
  arbiters : Option (List (List Char))
  tags : List (String × String)
deriving DecidableEq

/-- Member states (`PRIMARY = 1`, `SECONDARY = 2`, `OTHER = 3`). -/
inductive MemberState : Type
  | PRIMARY
  | SECONDARY
  | OTHER
deriving DecidableEq

/-- Immutable representation of one member of a replica set.  `pool` is an
opaque handle (pools are modelled separately); `ping_time` stands for the
`MovingAverage` sample list. -/
structure Member : Type where
  host : Host
  pool : Nat
  ismaster_response : IsMasterResponse
  ping_time : List Int
  up : Bool
deriving DecidableEq

/-- The `state` attribute, as computed in `Member.__init__` from the
response. -/
def Member.state (m : Member) : MemberState :=
  if m.ismaster_response.ismaster then .PRIMARY
  else if m.ismaster_response.secondary then .SECONDARY
  else .OTHER

def Member.is_primary (m : Member) : Bool := m.state = .PRIMARY

def Member.is_secondary (m : Member) : Bool := m.state = .SECONDARY

def Member.tags (m : Member) : List (String × String) :=
  m.ismaster_response.tags

/-- `Member.clone_with(ismaster_response, ping_time_sample)`: keeps host and
pool, refreshes the response, extends the ping average, sets `up = True`.
The `MovingAverage.clone_with` of `pymongo.read_preferences` is not in this
slice; appending the sample is modelled from the spec ("supports add(sample)
returning a new average") and no claim inspects the average. -/
def Member.clone_with (m : Member) (response : IsMasterResponse)
    (ping_time_sample : Int) : Member :=
  { host := m.host, pool := m.pool, ismaster_response := response,
    ping_time := m.ping_time ++ [ping_time_sample], up := true }

/-- `Member.clone_down()`: same member, `up = False`. -/
def Member.clone_down (m : Member) : Member :=
  { host := m.host, pool := m.pool,
    ismaster_response := m.ismaster_response,
    ping_time := m.ping_time, up := false }

/-- An immutable snapshot of the client's view of the replica-set state.
The task-local pinning store (`_threadlocal`) is not part of the value; pin
state is passed explicitly to the router model. -/
structure RSState : Type where
  host_to_member : List (Host × Member)
  arbiters : List Host
  writer : Option Host
  error_message : String
  primary_member : Option Member
deriving DecidableEq

/-- `RSState.__init__`: stores the fields and caches `_primary_member`:
`members[writer]` when `writer` is set and that member is up, else `None`.
(When `writer` is set but absent from the dict the source would raise
`KeyError`; the model yields `none`, and no reachable state hits this case.)
-/
def mkRSState (host_to_member : List (Host × Member)) (arbiters : List Host)
    (writer : Option Host) (error_message : String) : RSState :=
  { host_to_member := host_to_member, arbiters := arbiters, writer := writer,
    error_message := error_message,
    primary_member :=
      match writer with
      | none => none
      | some w =>
        match alookup host_to_member w with
        | none => none
        | some m => if m.up then some m else none }

/-- The state installed by `close()` and by `__init__` before the first
refresh: `RSState(threadlocal)` with all defaults. -/
def emptyRSState : RSState := mkRSState [] [] none "No primary available"

/-- `RSState.get(host)`. -/
def RSState.get (s : RSState) (host : Host) : Option Member :=
  alookup s.host_to_member host

/-- `RSState.members` (the set of `Member` values). -/
def RSState.members (s : RSState) : List Member :=
  s.host_to_member.map Prod.snd

/-- `RSState.clone_with_host_down(host, error_message)`: replace the member
at `host` (if present) by its down clone; if `host` was the writer, clear the
writer and record `error_message`, otherwise keep writer and error message.
-/
def RSState.clone_with_host_down (s : RSState) (host : Host)
    (error_message : String) : RSState :=
  let members :=
    match alookup s.host_to_member host with
    | some down_member => aupdate s.host_to_member host down_member.clone_down
    | none => s.host_to_member
  if s.writer = some host then
    mkRSState members s.arbiters none error_message
  else
    mkRSState members s.arbiters s.writer s.error_message

/-- `RSState.clone_without_writer(threadlocal)`: same members and arbiters,
no writer, default error message. -/
def RSState.clone_without_writer (s : RSState) : RSState :=
  mkRSState s.host_to_member s.arbiters none "No primary available"

/-! ## The refresh protocol (`MongoReplicaSetClient.refresh`)

The two `ismaster` probe rounds are oracles `probeA` (first loop, looking for
a member that reports the host list) and `probeB` (second loop, probing each
reported host); `none` models `ConnectionFailure` / `socket.error`.  A `none`
overall result models `refresh` raising (`AutoReconnect`,
`ConfigurationError`, or a `ValueError` escaping from `_partition_node`), in
which case no new state is installed. -/

/-- Candidate order: when the current snapshot has hosts the source computes
`sorted(rs_state.hosts, key=lambda host: rs_state.get(host).up)` — a stable
ascending sort on the boolean `up`, which places `False` (down) before
`True` (up); otherwise the seed list is used. -/
def refresh_nodes (rs : RSState) (seeds : List Host) : List Host :=
  if rs.host_to_member.isEmpty then seeds
  else
    let keys := rs.host_to_member.map Prod.fst
    let keyUp := fun h =>
      match alookup rs.host_to_member h with
      | some m => m.up
      | none => false
    keys.filter (fun h => keyUp h = false) ++
      keys.filter (fun h => keyUp h = true)

/-- Parse a list of raw `host:port` strings from a response;
a parse failure propagates (`ValueError`). -/
def parseNodeList (raw : List (List Char)) : Option (List Host) :=
  raw.mapM partition_node

/-- Union of host sets, keeping first-seen order, deduplicated
(models `set.update`). -/
def unionHosts (xs : List Host) (ys : List Host) : List Host :=
  ys.foldl (fun acc h => if h ∈ acc then acc else acc ++ [h]) xs

/-- The member value built for a probed node: `clone_with` for a known
member, a fresh `Member(node, pool, response, MovingAverage([ping]), True)`
otherwise (`newPool` supplies the fresh pool handle). -/
def mkNewMember (rs : RSState) (newPool : Host → Nat) (node : Host)
    (response : IsMasterResponse) (ping : Int) : Member :=
  match rs.get node with
  | some member => member.clone_with response ping
  | none =>
    { host := node, pool := newPool node, ismaster_response := response,
      ping_time := [ping], up := true }

/-- Set-name check: `if set_name and set_name != self.__name: raise
ConfigurationError`. -/
def badSetName (cfg : String) (response : IsMasterResponse) : Bool :=
  match response.setName with
  | some n => ¬(n = cfg)
  | none => false

/-- Accumulator of the first refresh loop. -/
structure Acc1 : Type where
  hosts : List Host
  members : List (Host × Member)
  arbiters : List Host
  writer : Option Host
deriving DecidableEq

/-- The body of one successful iteration of the first refresh loop: check
the set name (raising on mismatch), replace the arbiter set and extend the
host set from the response (parsing each raw string), and adopt the candidate
as a member — and as `writer` when its response says `ismaster` — only if the
candidate appears in the accumulated host set (`# don't add seed list
members`). -/
def refresh_step1 (cfg : String) (rs : RSState) (newPool : Host → Nat)
    (node : Host) (response : IsMasterResponse) (ping : Int) (acc : Acc1) :
    Option Acc1 :=
  if badSetName cfg response then none
  else
    match (match response.arbiters with
           | some raw => (parseNodeList raw).map (unionHosts [])
           | none => some acc.arbiters),
          (match response.hosts with
           | some raw => parseNodeList raw
           | none => some []),
          (match response.passives with
           | some raw => parseNodeList raw
           | none => some []) with
    | some arbiters, some hostsParsed, some passivesParsed =>
      let hosts := unionHosts (unionHosts acc.hosts hostsParsed) passivesParsed
      let new_member := mkNewMember rs newPool node response ping
      if node ∈ hosts then
        some ⟨hosts, ainsert acc.members node new_member, arbiters,
              if response.ismaster then some node else acc.writer⟩
      else some ⟨hosts, acc.members, arbiters, acc.writer⟩
    | _, _, _ => none

/-- First loop of `refresh`: iterate candidates until one yields a non-empty
host list.  On probe failure record the error and continue; on success run
`refresh_step1`.  Break as soon as `hosts` is non-empty; exhausting the
candidates raises (`for..else`). -/
def refresh_loop1 (cfg : String) (rs : RSState)
    (probe : Host → Option (IsMasterResponse × Int)) (newPool : Host → Nat) :
    List Host → Acc1 → Option Acc1
  | [], _ => none
  | node :: rest, acc =>
    match probe node with
    | none =>
      if acc.hosts.isEmpty then refresh_loop1 cfg rs probe newPool rest acc
      else some acc
    | some (response, ping) =>
      match refresh_step1 cfg rs newPool node response ping acc with
      | none => none
      | some acc' =>
        if acc'.hosts.isEmpty then refresh_loop1 cfg rs probe newPool rest acc'
        else some acc'

/-- Second loop of `refresh`: probe every host of the reported host list that
is not yet in the member map; on success add the member and adopt it as
writer when its response says `ismaster`; on failure skip it. -/
def refresh_loop2 (rs : RSState)
    (probe : Host → Option (IsMasterResponse × Int)) (newPool : Host → Nat) :
    List Host → List (Host × Member) × Option Host →
      List (Host × Member) × Option Host
  | [], mw => mw
  | host :: rest, (members, writer) =>
    if (alookup members host).isSome then
      refresh_loop2 rs probe newPool rest (members, writer)
    else
      match probe host with
      | none => refresh_loop2 rs probe newPool rest (members, writer)
      | some (res, ping) =>
        let new_member := mkNewMember rs newPool host res ping
        refresh_loop2 rs probe newPool rest
          (ainsert members host new_member,
           if res.ismaster then some host else writer)

/-- `refresh()`: build candidate order, run the two loops, and return the new
`RSState` (constructed with the default error message, as in the source);
`none` when refresh raises and no state is installed.  The thread-local
carry-over on unchanged writer has no observable effect here. -/
def refresh (cfg : String) (seeds : List Host) (rs : RSState)
    (probeA probeB : Host → Option (IsMasterResponse × Int))
    (newPool : Host → Nat) : Option RSState :=
  let nodes := refresh_nodes rs seeds
  match refresh_loop1 cfg rs probeA newPool nodes ⟨[], [], [], none⟩ with
  | none => none
  | some acc =>
    let mw := refresh_loop2 rs probeB newPool acc.hosts
      (acc.members, acc.writer)
    some (mkRSState mw.1 acc.arbiters mw.2 "No primary available")

/-- The states reachable through the client's state-producing operations:
the empty state installed by `close()` (also the initial state built in
`__init__`), `refresh`, `clone_with_host_down` (from `__try_read`), and
`clone_without_writer` (from `disconnect`). -/
inductive Reachable (cfg : String) (seeds : List Host) : RSState → Prop
  | closed : Reachable cfg seeds emptyRSState
  | refreshed (s s' : RSState)
      (probeA probeB : Host → Option (IsMasterResponse × Int))
      (newPool : Host → Nat) :
      Reachable cfg seeds s → refresh cfg seeds s probeA probeB newPool = some s' →
      Reachable cfg seeds s'
  | host_down (s : RSState) (h : Host) (e : String) :
      Reachable cfg seeds s → Reachable cfg seeds (s.clone_with_host_down h e)
  | without_writer (s : RSState) :
      Reachable cfg seeds s → Reachable cfg seeds s.clone_without_writer

/-! ## Invariant P1: writer vs. primary_member (claim C1) -/

/-- The writer of a member map is an up member whose handshake said
`ismaster`. -/
def WriterInv (members : List (Host × Member)) (writer : Option Host) : Prop :=
  ∀ w, writer = some w →
    ∃ m, alookup members w = some m ∧ m.up = true ∧ m.is_primary = true

theorem mkNewMember_up (rs : RSState) (np : Host → Nat) (node : Host)
    (response : IsMasterResponse) (ping : Int) :
    (mkNewMember rs np node response ping).up = true := by
  unfold mkNewMember
  cases rs.get node <;> rfl

theorem mkNewMember_response (rs : RSState) (np : Host → Nat) (node : Host)
    (response : IsMasterResponse) (ping : Int) :
    (mkNewMember rs np node response ping).ismaster_response = response := by
  unfold mkNewMember
  cases rs.get node <;> rfl

theorem mkNewMember_primary (rs : RSState) (np : Host → Nat) (node : Host)
    (response : IsMasterResponse) (ping : Int)
    (h : response.ismaster = true) :
    (mkNewMember rs np node response ping).is_primary = true := by
  simp [Member.is_primary, Member.state, mkNewMember_response, h]

theorem refresh_step1_winv (cfg : String) (rs : RSState) (np : Host → Nat)
    (node : Host) (response : IsMasterResponse) (ping : Int)
    (acc acc' : Acc1) (hw : acc.writer = none)
    (hstep : refresh_step1 cfg rs np node response ping acc = some acc') :
    WriterInv acc'.members acc'.writer := by
  unfold refresh_step1 at hstep
  split at hstep
  · exact absurd hstep (by simp)
  · split at hstep
    · rename_i xa xb xc arbiters hostsParsed passivesParsed harb hhosts hpass
      simp only [] at hstep
      by_cases hin :
          node ∈ unionHosts (unionHosts acc.hosts hostsParsed) passivesParsed
      · rw [if_pos hin] at hstep
        have hacc := Option.some.inj hstep
        rw [← hacc]
        intro w0 hw0
        have hw0' :
            (if response.ismaster = true then some node else acc.writer) =
              some w0 := hw0
        by_cases hmaster : response.ismaster = true
        · rw [if_pos hmaster] at hw0'
          obtain rfl : node = w0 := Option.some.inj hw0'
          exact ⟨mkNewMember rs np node response ping,
            alookup_ainsert_self acc.members node _,
            mkNewMember_up rs np node response ping,
            mkNewMember_primary rs np node response ping hmaster⟩
        · rw [if_neg hmaster, hw] at hw0'
          exact absurd hw0' (by simp)
      · rw [if_neg hin] at hstep
        have hacc := Option.some.inj hstep
        rw [← hacc]
        intro w0 hw0
        have hw0' : acc.writer = some w0 := hw0
        rw [hw] at hw0'
        exact absurd hw0' (by simp)
    · exact absurd hstep (by simp)

theorem refresh_step1_writer_continue (cfg : String) (rs : RSState)
    (np : Host → Nat) (node : Host) (response : IsMasterResponse) (ping : Int)
    (acc acc' : Acc1)
    (hstep : refresh_step1 cfg rs np node response ping acc = some acc')
    (hempty : acc'.hosts.isEmpty = true) : acc'.writer = acc.writer := by
  unfold refresh_step1 at hstep
  split at hstep
  · exact absurd hstep (by simp)
  · split at hstep
    · rename_i xa xb xc arbiters hostsParsed passivesParsed harb hhosts hpass
      simp only [] at hstep
      by_cases hin :
          node ∈ unionHosts (unionHosts acc.hosts hostsParsed) passivesParsed
      · rw [if_pos hin] at hstep
        have hacc := Option.some.inj hstep
        rw [← hacc] at hempty
        have hempty' :
            (unionHosts (unionHosts acc.hosts hostsParsed)
              passivesParsed).isEmpty = true := hempty
        rw [List.isEmpty_iff] at hempty'
        rw [hempty'] at hin
        exact absurd hin (by simp)
      · rw [if_neg hin] at hstep
        have hacc := Option.some.inj hstep
        rw [← hacc]
    · exact absurd hstep (by simp)

theorem refresh_loop1_winv (cfg : String) (rs : RSState)
    (probe : Host → Option (IsMasterResponse × Int)) (np : Host → Nat) :
    ∀ (nodes : List Host) (acc acc2 : Acc1), acc.writer = none →
      refresh_loop1 cfg rs probe np nodes acc = some acc2 →
      WriterInv acc2.members acc2.writer := by
  intro nodes
  induction nodes with
  | nil =>
    intro acc acc2 _ hrun
    simp [refresh_loop1] at hrun
  | cons node rest ih =>
    intro acc acc2 hw hrun
    rw [refresh_loop1] at hrun
    split at hrun
    · split at hrun
      · exact ih acc acc2 hw hrun
      · obtain rfl : acc = acc2 := Option.some.inj hrun
        intro w0 hw0
        rw [hw] at hw0
        exact absurd hw0 (by simp)
    · rename_i response ping hpr
      split at hrun
      · exact absurd hrun (by simp)
      · rename_i acc1 hstep
        split at hrun
        · rename_i hempty
          have hw1 : acc1.writer = none := by
            rw [refresh_step1_writer_continue cfg rs np node response ping
              acc acc1 hstep hempty]
            exact hw
          exact ih acc1 acc2 hw1 hrun
        · obtain rfl : acc1 = acc2 := Option.some.inj hrun
          exact refresh_step1_winv cfg rs np node response ping acc acc1 hw
            hstep

theorem refresh_loop2_winv (rs : RSState)
    (probe : Host → Option (IsMasterResponse × Int)) (np : Host → Nat) :
    ∀ (hosts : List Host) (members : List (Host × Member))
      (writer : Option Host), WriterInv members writer →
      WriterInv (refresh_loop2 rs probe np hosts (members, writer)).1
        (refresh_loop2 rs probe np hosts (members, writer)).2 := by
  intro hosts
  induction hosts with
  | nil => intro members writer h; exact h
  | cons host rest ih =>
    intro members writer h
    rw [refresh_loop2]
    by_cases hmem : (alookup members host).isSome = true
    · simp only [hmem, if_true]
      exact ih members writer h
    · simp only [hmem, Bool.false_eq_true, if_false]
      cases hpr : probe host with
      | none => exact ih members writer h
      | some rp =>
        obtain ⟨res, ping⟩ := rp
        apply ih
        intro w hw
        by_cases hmaster : res.ismaster = true
        · simp only [hmaster, if_true] at hw
          obtain rfl : host = w := by injection hw
          refine ⟨mkNewMember rs np host res ping,
            alookup_ainsert_self members host _,
            mkNewMember_up rs np host res ping,
            mkNewMember_primary rs np host res ping hmaster⟩
        · simp only [hmaster, Bool.false_eq_true, if_false] at hw
          obtain ⟨m, hlk, hup, hprim⟩ := h w hw
          have hwh : w ≠ host := by
            intro heq
            apply hmem
            rw [← heq, hlk]
            rfl
          refine ⟨m, ?_, hup, hprim⟩
          rw [alookup_ainsert_ne members host w _ hwh]
          exact hlk

theorem mkRSState_c1 (htm : List (Host × Member)) (arbs : List Host)
    (w : Option Host) (em : String) (hinv : WriterInv htm w) :
    (mkRSState htm arbs w em).writer.isSome =
      ((mkRSState htm arbs w em).primary_member.map
        (fun m => m.is_primary && m.up)).getD false := by
  cases w with
  | none => simp [mkRSState]
  | some w0 =>
    obtain ⟨m, hlk, hup, hprim⟩ := hinv w0 rfl
    simp [mkRSState, hlk, hup, hprim]

theorem reachable_mk_winv (cfg : String) (seeds : List Host) (s : RSState)
    (h : Reachable cfg seeds s) :
    ∃ htm arbs w em, s = mkRSState htm arbs w em ∧ WriterInv htm w := by
  induction h with
  | closed =>
    refine ⟨[], [], none, "No primary available", rfl, ?_⟩
    intro w hw
    simp at hw
  | refreshed s s' probeA probeB newPool _ hrefresh ih =>
    rw [refresh] at hrefresh
    cases hl1 : refresh_loop1 cfg s probeA newPool
        (refresh_nodes s seeds) ⟨[], [], [], none⟩ with
    | none => rw [hl1] at hrefresh; simp at hrefresh
    | some acc =>
      rw [hl1] at hrefresh
      simp only [Option.some.injEq] at hrefresh
      have hw1 : WriterInv acc.members acc.writer :=
        refresh_loop1_winv cfg s probeA newPool (refresh_nodes s seeds)
          ⟨[], [], [], none⟩ acc rfl hl1
      have hw2 := refresh_loop2_winv s probeB newPool acc.hosts
        acc.members acc.writer hw1
      exact ⟨_, _, _, _, hrefresh.symm, hw2⟩
  | host_down s host e _ ih =>
    obtain ⟨htm, arbs, w, em, rfl, hinv⟩ := ih
    rw [RSState.clone_with_host_down]
    by_cases hw : (mkRSState htm arbs w em).writer = some host
    · simp only [hw, if_true]
      exact ⟨_, _, _, _, rfl, fun w0 hw0 => by simp at hw0⟩
    · simp only [hw, if_false]
      refine ⟨_, _, _, _, rfl, ?_⟩
      intro w0 hw0
      have hwfield : (mkRSState htm arbs w em).writer = w := rfl
      rw [hwfield] at hw hw0
      obtain ⟨m, hlk, hup, hprim⟩ := hinv w0 hw0
      have hw0h : w0 ≠ host := by
        intro heq
        rw [hw0, heq] at hw
        exact hw rfl
      have hfield : (mkRSState htm arbs w em).host_to_member = htm := rfl
      rw [hfield]
      cases hdl : alookup htm host with
      | none => exact ⟨m, hlk, hup, hprim⟩
      | some dm =>
        refine ⟨m, ?_, hup, hprim⟩
        rw [alookup_aupdate_ne htm host w0 _ hw0h]
        exact hlk
  | without_writer s _ ih =>
    obtain ⟨htm, arbs, w, em, rfl, _⟩ := ih
    exact ⟨_, _, _, _, rfl, fun w0 hw0 => by simp at hw0⟩

/-- C1: in every reachable snapshot, `writer` is set exactly when
`primary_member` is set, is primary, and is up (invariant P1). -/
theorem c1_writer_iff_primary_member (cfg : String) (seeds : List Host)
    (s : RSState) (h : Reachable cfg seeds s) :
    s.writer.isSome =
      ((s.primary_member.map (fun m => m.is_primary && m.up)).getD false) := by
  obtain ⟨htm, arbs, w, em, rfl, hinv⟩ := reachable_mk_winv cfg seeds s h
  exact mkRSState_c1 htm arbs w em hinv

/-- C1 witness: the invariant instantiated at the empty snapshot that
`close()` installs. -/
theorem c1_witness :
    emptyRSState.writer.isSome =
      ((emptyRSState.primary_member.map
        (fun m => m.is_primary && m.up)).getD false) :=
  c1_writer_iff_primary_member "rs0" [] emptyRSState (Reachable.closed)

/-! ## Sample concrete states -/

def respPrimary : IsMasterResponse :=
  { ismaster := true, secondary := false, setName := none, hosts := none,
    passives := none, arbiters := none, tags := [] }

def respSecondary : IsMasterResponse :=
  { ismaster := false, secondary := true, setName := none, hosts := none,
    passives := none, arbiters := none, tags := [] }

def hostA : Host := ("a".toList, 27017)

def hostB : Host := ("b".toList, 27017)

def memberA : Member :=
  { host := hostA, pool := 0, ismaster_response := respPrimary,
    ping_time := [1], up := true }

def memberBdown : Member :=
  { host := hostB, pool := 1, ismaster_response := respSecondary,
    ping_time := [1], up := false }

def sampleState : RSState :=
  mkRSState [(hostA, memberA), (hostB, memberBdown)] [] (some hostA)
    "No primary available"

/-- C2 (code bug): with member A up and member B down, `refresh` iterates the
candidates down-first: `sorted(rs_state.hosts, key=lambda host:
rs_state.get(host).up)` is an ascending sort on the boolean, which places
`False` (down) before `True` (up) — the opposite of the up-first order stated
by the spec and by the comment directly above the line. -/
theorem c2_refresh_order_down_first :
    refresh_nodes sampleState [hostA] = [hostB, hostA] ∧
      memberA.up = true ∧ memberBdown.up = false ∧
      sampleState.get hostA = some memberA ∧
      sampleState.get hostB = some memberBdown := by decide

/-- C5: `clone_with_host_down(h, e)` replaces exactly the member at the
downed endpoint by its down clone, keeps every other member and the arbiter
set, and clears `writer` (recording the error message) precisely when the
downed endpoint was the writer; otherwise writer and error message carry
over. -/
theorem c5_clone_with_host_down (s : RSState) (h : Host) (e : String)
    (m : Member) (h2 : Host) (hm : alookup s.host_to_member h = some m)
    (hne : h2 ≠ h) :
    alookup (s.clone_with_host_down h e).host_to_member h =
        some m.clone_down ∧
      alookup (s.clone_with_host_down h e).host_to_member h2 =
        alookup s.host_to_member h2 ∧
      (s.clone_with_host_down h e).arbiters = s.arbiters ∧
      (s.writer = some h →
        (s.clone_with_host_down h e).writer = none ∧
          (s.clone_with_host_down h e).error_message = e) ∧
      (s.writer ≠ some h →
        (s.clone_with_host_down h e).writer = s.writer ∧
          (s.clone_with_host_down h e).error_message = s.error_message) := by
  unfold RSState.clone_with_host_down
  rw [hm]
  by_cases hw : s.writer = some h
  · rw [if_pos hw]
    refine ⟨?_, ?_, rfl, ?_, ?_⟩
    · exact alookup_aupdate_self s.host_to_member h m.clone_down m hm
    · exact alookup_aupdate_ne s.host_to_member h h2 m.clone_down hne
    · intro _
      exact ⟨rfl, rfl⟩
    · intro hcon
      exact absurd hw hcon
  · rw [if_neg hw]
    refine ⟨?_, ?_, rfl, ?_, ?_⟩
    · exact alookup_aupdate_self s.host_to_member h m.clone_down m hm
    · exact alookup_aupdate_ne s.host_to_member h h2 m.clone_down hne
    · intro hcon
      exact absurd hcon hw
    · intro _
      exact ⟨rfl, rfl⟩

/-- C5 witness: the frame property evaluated on a concrete snapshot whose
writer goes down. -/
theorem c5_clone_with_host_down_witness :
    alookup (sampleState.clone_with_host_down hostA "conn reset").host_to_member
        hostA = some memberA.clone_down ∧
      alookup (sampleState.clone_with_host_down hostA
          "conn reset").host_to_member hostB =
        alookup sampleState.host_to_member hostB ∧
      (sampleState.clone_with_host_down hostA "conn reset").arbiters =
        sampleState.arbiters ∧
      (sampleState.writer = some hostA →
        (sampleState.clone_with_host_down hostA "conn reset").writer = none ∧
          (sampleState.clone_with_host_down hostA
            "conn reset").error_message = "conn reset") ∧
      (sampleState.writer ≠ some hostA →
        (sampleState.clone_with_host_down hostA "conn reset").writer =
            sampleState.writer ∧
          (sampleState.clone_with_host_down hostA
            "conn reset").error_message = sampleState.error_message) :=
  c5_clone_with_host_down sampleState hostA "conn reset" memberA hostB
    (by decide) (by decide)

/-! ## Read preferences and the request router
(`_send_message_with_response`) -/

/-- Read preference modes.  Modelled from the spec: the five modes of §4.6;
`pymongo.read_preferences` (not in this slice) defines the constants and the
`modes` name table used in the exhaustion message. -/
inductive ReadPref : Type
  | PRIMARY
  | PRIMARY_PREFERRED
  | SECONDARY
  | SECONDARY_PREFERRED
  | NEAREST
deriving DecidableEq

/-- Modelled from the spec: `modes[mode]`, the printable name of a mode. -/
def mode_name : ReadPref → String
  | .PRIMARY => "PRIMARY"
  | .PRIMARY_PREFERRED => "PRIMARY_PREFERRED"
  | .SECONDARY => "SECONDARY"
  | .SECONDARY_PREFERRED => "SECONDARY_PREFERRED"
  | .NEAREST => "NEAREST"

abbrev Tags : Type := List (String × String)

abbrev TagSets : Type := List Tags

/-- `Member.matches_mode` from the source: a member in a state like
RECOVERING matches no mode. -/
def Member.matches_mode (m : Member) (mode : ReadPref) : Bool :=
  if mode = .PRIMARY ∧ m.is_primary = false then false
  else if mode = .SECONDARY ∧ m.is_secondary = false then false
  else m.is_primary || m.is_secondary

/-- `Member.matches_tags`: the member's tags are a superset of the given
tags. -/
def Member.matches_tags (m : Member) (tags : Tags) : Bool :=
  tags.all (fun kv => alookup m.tags kv.1 = some kv.2)

/-- `Member.matches_tag_sets`: matches any of the tag sets. -/
def Member.matches_tag_sets (m : Member) (tag_sets : TagSets) : Bool :=
  tag_sets.any (fun tags => m.matches_tags tags)

def MAX_RETRY : Nat := 3

/-- Opening and closing brace characters, written via code points. -/
def lbrace : String := Char.toString (Char.ofNat 123)

def rbrace : String := Char.toString (Char.ofNat 125)

/-- Rendering of Python `repr(tag_sets)` (a list of dicts).  Only whether
this suffix is appended matters to the claims, not its exact text. -/
def reprTags (t : Tags) : String :=
  lbrace ++ String.intercalate ", "
    (t.map (fun kv => kv.1 ++ ": " ++ kv.2)) ++ rbrace

def reprTagSets (ts : TagSets) : String :=
  "[" ++ String.intercalate ", " (ts.map reprTags) ++ "]"

/-- The exhaustion message of `_send_message_with_response`: a role word
chosen from the mode, the mode name, and — exactly when `tag_sets != [{}]` —
the rendered tag sets. -/
def composite_message (mode : ReadPref) (tag_sets : TagSets) : String :=
  let base :=
    if mode = .PRIMARY then "No replica set primary available for query"
    else if mode = .SECONDARY then
      "No replica set secondary available for query"
    else "No replica set members available for query"
  let msg := base ++ " with ReadPreference " ++ mode_name mode
  if tag_sets = [[]] then msg else msg ++ " and tags " ++ reprTagSets tag_sets

inductive RouteResult : Type
  | sent (host : Host) (response : String)
  | raised (msg : String)
deriving DecidableEq

/-- The router's external collaborators.  `select_member` is modelled from
the spec (§4.7 selection function, external to this slice).  `try_read`
abstracts `__try_read`: `.error msg` is the `AutoReconnect` it raises (its
side effects — marking the member down in the shared `__rs_state` and waking
the monitor — do not touch the local snapshot the router keeps reading). -/
structure RouterEnv : Type where
  select_member : List Member → ReadPref → TagSets → Int → Option Member
  try_read : Member → Except String String

/-- The retry loop of `_send_message_with_response` (`while len(errors) <
MAX_RETRY`).  Each iteration appends exactly one error on failure, so the
loop is a countdown of `MAX_RETRY - len(errors)`; `remaining` is that
countdown (the error list itself reaches only the exception's second
argument, never the message).  On failure the member is removed from the
local candidate list.  Returns the outcome and the number of member attempts
made. -/
def retry_loop (env : RouterEnv) (mode : ReadPref) (tag_sets : TagSets)
    (latency : Int) : Nat → List Member → RouteResult × Nat
  | 0, _ => (.raised (composite_message mode tag_sets), 0)
  | remaining + 1, members =>
    match env.select_member members mode tag_sets latency with
    | none => (.raised (composite_message mode tag_sets), 0)
    | some member =>
      match env.try_read member with
      | .ok response => (.sent member.host response, 1)
      | .error _ =>
        ((retry_loop env mode tag_sets latency remaining
            (members.erase member)).1,
         (retry_loop env mode tag_sets latency remaining
            (members.erase member)).2 + 1)

/-- The pinned-member gate: the task's pinned host resolves to a member that
matches the mode and the tag sets, and the stored read preference equals the
requested one (`keep_pinned_host`). -/
def pin_matches (rs : RSState) (pin : Option (Host × ReadPref × TagSets × Int))
    (mode : ReadPref) (tag_sets : TagSets) (latency : Int) : Option Member :=
  match pin with
  | none => none
  | some (ph, pmode, ptags, plat) =>
    match rs.get ph with
    | none => none
    | some pm =>
      if pm.matches_mode mode = true ∧ pm.matches_tag_sets tag_sets = true ∧
          pmode = mode ∧ ptags = tag_sets ∧ plat = latency then some pm
      else none

/-- The no-endpoint-override path of `_send_message_with_response` after
mode/tag-set resolution: try a matching pinned member first — a failure under
PRIMARY (or `_must_use_master`) disconnects and re-raises that error,
otherwise the failure consumes one of the `MAX_RETRY` error slots; then run
the retry loop over the snapshot's members.  (Pinning on success writes only
to task-local storage, which is not part of the snapshot value.) -/
def route_with_pref (env : RouterEnv) (rs : RSState)
    (pin : Option (Host × ReadPref × TagSets × Int)) (mode : ReadPref)
    (tag_sets : TagSets) (latency : Int) (must_use_master : Bool) :
    RouteResult × Nat :=
  match pin_matches rs pin mode tag_sets latency with
  | some pm =>
    match env.try_read pm with
    | .ok response => (.sent pm.host response, 1)
    | .error why =>
      if must_use_master = true ∨ mode = .PRIMARY then (.raised why, 1)
      else
        ((retry_loop env mode tag_sets latency (MAX_RETRY - 1) rs.members).1,
         (retry_loop env mode tag_sets latency (MAX_RETRY - 1)
            rs.members).2 + 1)
  | none => retry_loop env mode tag_sets latency MAX_RETRY rs.members

/-- `_send_message_with_response` with no `_connection_to_use` override,
starting after the monitor bootstrap and the no-primary refresh re-read:
`_must_use_master` forces mode PRIMARY and tag sets `[{}]`. -/
def send_message_with_response (env : RouterEnv) (rs : RSState)
    (pin : Option (Host × ReadPref × TagSets × Int)) (mode0 : ReadPref)
    (tag_sets0 : TagSets) (latency : Int) (must_use_master : Bool) :
    RouteResult × Nat :=
  route_with_pref env rs pin (if must_use_master then .PRIMARY else mode0)
    (if must_use_master then [[]] else tag_sets0) latency must_use_master

theorem retry_loop_all_fail (env : RouterEnv) (mode : ReadPref)
    (tag_sets : TagSets) (latency : Int)
    (hfail : ∀ m, ∃ e, env.try_read m = .error e) :
    ∀ (remaining : Nat) (members : List Member),
      (retry_loop env mode tag_sets latency remaining members).1 =
          .raised (composite_message mode tag_sets) ∧
        (retry_loop env mode tag_sets latency remaining members).2 ≤
          remaining := by
  intro remaining
  induction remaining with
  | zero =>
    intro members
    exact ⟨rfl, Nat.le_refl 0⟩
  | succ n ih =>
    intro members
    cases hsel : env.select_member members mode tag_sets latency with
    | none => simp [retry_loop, hsel]
    | some member =>
      obtain ⟨e, he⟩ := hfail member
      have hih := ih (members.erase member)
      constructor
      · simp only [retry_loop, hsel, he]
        exact hih.1
      · simp only [retry_loop, hsel, he]
        exact Nat.succ_le_succ hih.2

/-- C4 counterexample: a task pinned to the (matching) primary whose read
fails with auto-reconnect makes `_send_message_with_response` disconnect and
re-raise that member's own error after a single attempt — not the composite
"No replica set ..." message the claim requires whenever every attempted
member fails. -/
theorem c4_counterexample :
    (send_message_with_response
        ⟨fun _ _ _ _ => none, fun _ => .error "a:27017: conn reset"⟩
        sampleState (some (hostA, .PRIMARY, [[]], 15)) .PRIMARY [[]] 15
        false).1 = .raised "a:27017: conn reset" ∧
      "a:27017: conn reset" ≠ composite_message .PRIMARY [[]] := by decide

/-- C4 amended: with no endpoint override and every attempted member failing
with auto-reconnect, at most `MAX_RETRY = 3` member attempts are made, and —
except when a matching pinned member is attempted under PRIMARY mode (or
`_must_use_master`), whose own error is re-raised after `disconnect()` — the
raised auto-reconnect carries the composite message "No replica set <role>
available for query with ReadPreference <mode>", with " and tags <tagSets>"
appended exactly when the tag sets differ from `[{}]`. -/
theorem c4_amended (env : RouterEnv) (rs : RSState)
    (pin : Option (Host × ReadPref × TagSets × Int)) (mode0 : ReadPref)
    (tag_sets0 : TagSets) (latency : Int) (must_use_master : Bool)
    (hfail : ∀ m, ∃ e, env.try_read m = .error e) :
    (send_message_with_response env rs pin mode0 tag_sets0 latency
        must_use_master).2 ≤ MAX_RETRY ∧
      ((∀ pm, pin_matches rs pin
            (if must_use_master then .PRIMARY else mode0)
            (if must_use_master then [[]] else tag_sets0) latency = some pm →
          must_use_master = false ∧ mode0 ≠ .PRIMARY) →
        (send_message_with_response env rs pin mode0 tag_sets0 latency
            must_use_master).1 =
          .raised (composite_message
            (if must_use_master then .PRIMARY else mode0)
            (if must_use_master then [[]] else tag_sets0))) := by
  unfold send_message_with_response route_with_pref
  cases hpin : pin_matches rs pin (if must_use_master then .PRIMARY else mode0)
      (if must_use_master then [[]] else tag_sets0) latency with
  | none =>
    have hall := retry_loop_all_fail env
      (if must_use_master then .PRIMARY else mode0)
      (if must_use_master then [[]] else tag_sets0) latency hfail MAX_RETRY
      rs.members
    exact ⟨hall.2, fun _ => hall.1⟩
  | some pm =>
    obtain ⟨e, he⟩ := hfail pm
    simp only [he]
    by_cases hp : must_use_master = true ∨
        (if must_use_master then ReadPref.PRIMARY else mode0) = .PRIMARY
    · rw [if_pos hp]
      refine ⟨show (1 : Nat) ≤ MAX_RETRY by decide, ?_⟩
      intro hcond
      obtain ⟨hmum, hmode0⟩ := hcond pm rfl
      exfalso
      cases hp with
      | inl h1 => rw [hmum] at h1; exact absurd h1 (by decide)
      | inr h1 =>
        rw [hmum] at h1
        simp only [Bool.false_eq_true, if_false] at h1
        exact hmode0 h1
    · rw [if_neg hp]
      have hall := retry_loop_all_fail env
        (if must_use_master then .PRIMARY else mode0)
        (if must_use_master then [[]] else tag_sets0) latency hfail
        (MAX_RETRY - 1) rs.members
      refine ⟨?_, fun _ => hall.1⟩
      have h3 : (retry_loop env (if must_use_master then .PRIMARY else mode0)
          (if must_use_master then [[]] else tag_sets0) latency
          (MAX_RETRY - 1) rs.members).2 + 1 ≤ MAX_RETRY := by
        have h2 := hall.2
        simp only [MAX_RETRY] at h2 ⊢
        omega
      exact h3

/-- C4 witness: the amended statement on a concrete environment where every
read fails and the task holds no pin. -/
theorem c4_amended_witness :
    (send_message_with_response
        ⟨fun ms _ _ _ => ms.head?, fun _ => .error "a:27017: conn reset"⟩
        sampleState none .SECONDARY [[]] 15 false).2 ≤ MAX_RETRY ∧
      ((∀ pm, pin_matches sampleState none
            (if false then ReadPref.PRIMARY else .SECONDARY)
            (if false then [[]] else [[]]) 15 = some pm →
          false = false ∧ ReadPref.SECONDARY ≠ .PRIMARY) →
        (send_message_with_response
            ⟨fun ms _ _ _ => ms.head?, fun _ => .error "a:27017: conn reset"⟩
            sampleState none .SECONDARY [[]] 15 false).1 =
          .raised (composite_message
            (if false then ReadPref.PRIMARY else .SECONDARY)
            (if false then [[]] else [[]]))) :=
  c4_amended ⟨fun ms _ _ _ => ms.head?, fun _ => .error "a:27017: conn reset"⟩
    sampleState none .SECONDARY [[]] 15 false
    (fun _ => ⟨"a:27017: conn reset", rfl⟩)

/-! ## Acknowledged-write error dispatch
(`__check_response_to_last_error`) -/

/-- An unpacked acknowledged-write error document (`response["data"][0]`).
`err = none` models an absent key (`.get("err", "")` then yields `""`);
`some none` models `err: null`; `some (some s)` the string `s`.  Documents
reaching this logic have passed `helpers._check_command_response` (external
to this slice; modelled from the spec as a no-op on acknowledged-write
responses, which carry `ok: 1`). -/
structure ErrorDoc : Type where
  err : Option (Option String)
  code : Option Int
deriving DecidableEq

inductive LastErrorOutcome : Type
  | returned
  | autoReconnect (msg : String)
  | duplicateKey (msg : String) (code : Int)
  | operationFailure (msg : String) (code : Option Int)
deriving DecidableEq

/-- Outcome of `__check_response_to_last_error`, plus whether
`self.disconnect()` was invoked. -/
structure CheckLastErrorResult : Type where
  outcome : LastErrorOutcome
  disconnected : Bool
deriving DecidableEq

/-- `error_msg.startswith("not master")`. -/
def notMaster (s : String) : Bool := "not master".toList.isPrefixOf s.toList

/-- `__check_response_to_last_error`, from the point where the error
document is in hand: an `err` of `None` returns the document; a message
starting with "not master" disconnects and raises auto-reconnect; codes
11000/11001/12582 raise duplicate-key; anything else raises operation
failure (with the code when present). -/
def check_response_to_last_error (doc : ErrorDoc) : CheckLastErrorResult :=
  let error_msg : Option String :=
    match doc.err with
    | none => some ""
    | some none => none
    | some (some s) => some s
  match error_msg with
  | none => ⟨.returned, false⟩
  | some s =>
    if notMaster s then ⟨.autoReconnect s, true⟩
    else
      match doc.code with
      | some c =>
        if c = 11000 ∨ c = 11001 ∨ c = 12582 then ⟨.duplicateKey s c, false⟩
        else ⟨.operationFailure s (some c), false⟩
      | none => ⟨.operationFailure s none, false⟩

/-- C7: for an error document whose `err` field is the string `s`: a "not
master" prefix disconnects and raises auto-reconnect; otherwise a code in
{11000, 11001, 12582} raises duplicate-key; otherwise operation failure is
raised (with the code when present, without one when absent). -/
theorem c7_last_error_dispatch (doc : ErrorDoc) (s : String) (c : Int)
    (hs : doc.err = some (some s)) :
    (notMaster s = true →
        check_response_to_last_error doc = ⟨.autoReconnect s, true⟩) ∧
      (notMaster s = false → doc.code = some c →
        (c = 11000 ∨ c = 11001 ∨ c = 12582) →
        check_response_to_last_error doc = ⟨.duplicateKey s c, false⟩) ∧
      (notMaster s = false → doc.code = some c →
        ¬(c = 11000 ∨ c = 11001 ∨ c = 12582) →
        check_response_to_last_error doc =
          ⟨.operationFailure s (some c), false⟩) ∧
      (notMaster s = false → doc.code = none →
        check_response_to_last_error doc =
          ⟨.operationFailure s none, false⟩) := by
  refine ⟨?_, ?_, ?_, ?_⟩
  · intro hnm
    simp [check_response_to_last_error, hs, hnm]
  · intro hnm hc hdup
    simp only [check_response_to_last_error, hs, hnm, hc,
      Bool.false_eq_true, if_false]
    rw [if_pos hdup]
  · intro hnm hc hdup
    simp only [check_response_to_last_error, hs, hnm, hc,
      Bool.false_eq_true, if_false]
    rw [if_neg hdup]
  · intro hnm hc
    simp [check_response_to_last_error, hs, hnm, hc]

/-- C7 witness: the dispatch on a concrete duplicate-key error document. -/
theorem c7_last_error_dispatch_witness :
    (notMaster "E11000 duplicate key" = true →
        check_response_to_last_error
            ⟨some (some "E11000 duplicate key"), some 11000⟩ =
          ⟨.autoReconnect "E11000 duplicate key", true⟩) ∧
      (notMaster "E11000 duplicate key" = false →
        (⟨some (some "E11000 duplicate key"), some 11000⟩ : ErrorDoc).code =
          some 11000 →
        ((11000 : Int) = 11000 ∨ (11000 : Int) = 11001 ∨
          (11000 : Int) = 12582) →
        check_response_to_last_error
            ⟨some (some "E11000 duplicate key"), some 11000⟩ =
          ⟨.duplicateKey "E11000 duplicate key" 11000, false⟩) ∧
      (notMaster "E11000 duplicate key" = false →
        (⟨some (some "E11000 duplicate key"), some 11000⟩ : ErrorDoc).code =
          some 11000 →
        ¬((11000 : Int) = 11000 ∨ (11000 : Int) = 11001 ∨
          (11000 : Int) = 12582) →
        check_response_to_last_error
            ⟨some (some "E11000 duplicate key"), some 11000⟩ =
          ⟨.operationFailure "E11000 duplicate key" (some 11000), false⟩) ∧
      (notMaster "E11000 duplicate key" = false →
        (⟨some (some "E11000 duplicate key"), some 11000⟩ : ErrorDoc).code =
          none →
        check_response_to_last_error
            ⟨some (some "E11000 duplicate key"), some 11000⟩ =
          ⟨.operationFailure "E11000 duplicate key" none, false⟩) :=
  c7_last_error_dispatch ⟨some (some "E11000 duplicate key"), some 11000⟩
    "E11000 duplicate key" 11000 rfl

/-! ## The connection pool (pool.py) -/

/-- The mutable `SocketInfo` attributes the claims observe (the wrapped OS
socket is identified by its key in `Pool.socks`; `pool_id` is the generation
stamped at creation). -/
structure SockData : Type where
  closed : Bool
  last_checkout : Int
  forced : Bool
  pool_id : Nat
deriving DecidableEq

/-- A task's entry in `_tid_to_sock`: the `NO_SOCKET_YET = -1` sentinel or a
socket; an absent key is `NO_REQUEST = None`. -/
inductive TidEntry : Type
  | noSocketYet
  | sock (sid : Nat)
deriving DecidableEq

/-- The pool state.  `sem` is the number of available permits of the
concurrency semaphore (meaningful when `max_size` is set; `max_size = none`
selects the `DummySemaphore`).  `idle` is `self.sockets`; `socks` maps
socket identities to their attributes; `next_sid` numbers the sockets
`connect` creates. -/
structure Pool : Type where
  pool_id : Nat
  pid : Nat
  max_size : Option Nat
  net_timeout : Int
  sem : Nat
  idle : List Nat
  socks : List (Nat × SockData)
  tid_to_sock : List (Nat × TidEntry)
  request_counter : List (Nat × Nat)
  next_sid : Nat
deriving DecidableEq

def Pool.getSock (p : Pool) (sid : Nat) : SockData :=
  (alookup p.socks sid).getD ⟨true, 0, false, 0⟩

def Pool.setSock (p : Pool) (sid : Nat) (sd : SockData) : Pool :=
  { p with socks := aupdate p.socks sid sd }

/-- `sock_info.close()`. -/
def Pool.closeSock (p : Pool) (sid : Nat) : Pool :=
  p.setSock sid { p.getSock sid with closed := true }

def Pool.setForced (p : Pool) (sid : Nat) (b : Bool) : Pool :=
  p.setSock sid { p.getSock sid with forced := b }

def Pool.setLastCheckout (p : Pool) (sid : Nat) (t : Int) : Pool :=
  p.setSock sid { p.getSock sid with last_checkout := t }

/-- Modelled from the spec: the `thread_util` semaphores of §4.3.
Non-blocking acquire of one permit; with `max_size = none` the
`DummySemaphore` always succeeds and keeps no count. -/
def Pool.semTryAcquire (p : Pool) : Bool × Pool :=
  match p.max_size with
  | none => (true, p)
  | some _ =>
    if p.sem = 0 then (false, p) else (true, { p with sem := p.sem - 1 })

/-- Modelled from the spec: releasing one permit (a no-op for the
`DummySemaphore`). -/
def Pool.semRelease (p : Pool) : Pool :=
  match p.max_size with
  | none => p
  | some _ => { p with sem := p.sem + 1 }

def Pool.lookupTid (p : Pool) (tid : Nat) : Option TidEntry :=
  alookup p.tid_to_sock tid

def Pool.setTid (p : Pool) (tid : Nat) (e : TidEntry) : Pool :=
  { p with tid_to_sock := ainsert p.tid_to_sock tid e }

/-- `reset()`: bump the generation, adopt the current pid, close every idle
socket and empty the idle set. -/
def Pool.reset (p : Pool) (pid : Nat) : Pool :=
  p.idle.foldl (fun q sid => q.closeSock sid)
    { p with pool_id := p.pool_id + 1, pid := pid, idle := [] }

/-- Python 2 comparison `len(self.sockets) < self.max_size`: `None` is
smaller than every integer in Python 2, so the comparison is `False`
whenever `max_size` is `None`. -/
def pyLtLenMax (n : Nat) : Option Nat → Bool
  | some m => n < m
  | none => false

/-- `_return_socket`: add the socket to the idle set when
`len(self.sockets) < self.max_size` and its generation is current, else
close it; then clear `forced` instead of releasing a permit when the socket
was forced. -/
def Pool.return_socket (p : Pool) (sid : Nat) : Pool :=
  let p1 :=
    if pyLtLenMax p.idle.length p.max_size ∧
        (p.getSock sid).pool_id = p.pool_id then
      { p with idle := if sid ∈ p.idle then p.idle else sid :: p.idle }
    else p.closeSock sid
  if (p1.getSock sid).forced then p1.setForced sid false else p1.semRelease

/-- `maybe_return_socket(sock_info)`: on a pid change release (unless
forced) and reset; a closed socket only settles its permit (clearing
`forced`, or releasing); the calling task's request socket stays bound;
anything else goes to `_return_socket`.  (`tid` is the calling task, used by
`_get_request_state`; the source's optional `tid` argument feeds only log
lines.) -/
def Pool.maybe_return_socket (p : Pool) (sid : Nat) (pid tid : Nat) : Pool :=
  if ¬(p.pid = pid) then
    (if (p.getSock sid).forced then p else p.semRelease).reset pid
  else if (p.getSock sid).closed then
    if (p.getSock sid).forced then p.setForced sid false else p.semRelease
  else if p.lookupTid tid = some (.sock sid) then p
  else p.return_socket sid

inductive GetErr : Type
  | timeout
  | connFailure
deriving DecidableEq

/-- `connect(pair)`: a fresh open `SocketInfo` stamped with the current pool
generation; `SocketInfo.__init__` stamps `last_checkout` with the creation
time. -/
def Pool.newSock (p : Pool) (now : Int) : Pool × Nat :=
  ({ p with
      socks := ainsert p.socks p.next_sid ⟨false, now, false, p.pool_id⟩,
      next_sid := p.next_sid + 1 }, p.next_sid)

/-- `_check(sock_info, pair, acquire_on_connect)`: keep a socket that is
open, of the current generation, and — when idle for more than a second —
passing the readiness poll (`pollClosed` is the oracle for `_closed`);
otherwise connect a replacement (`connectOk` the oracle for `connect`),
first acquiring a permit when `acquire_on_connect` (the blocking acquire is
modelled as immediate availability).  A connect failure resets the pool and
re-raises; error values carry the pool state at the raise. -/
def Pool.check_sock (p : Pool) (sid : Nat) (now : Int) (pid : Nat)
    (connectOk pollClosed acquire_on_connect : Bool) :
    Except (GetErr × Pool) (Pool × Nat) :=
  let sd := p.getSock sid
  let ep : Bool × Pool :=
    if sd.closed then (true, p)
    else if ¬(p.pool_id = sd.pool_id) then (true, p.closeSock sid)
    else if now - sd.last_checkout > 1 then
      (if pollClosed then (true, p.closeSock sid) else (false, p))
    else (false, p)
  if ep.1 = false then .ok (ep.2, sid)
  else
    let acq : Bool × Pool :=
      if acquire_on_connect then ep.2.semTryAcquire else (true, ep.2)
    if acq.1 = false then .error (.timeout, acq.2)
    else if connectOk then .ok (acq.2.newSock now)
    else .error (.connFailure, acq.2.reset pid)

/-- `get_socket(force=False)`: reset on pid change; a bound request socket
is health-checked (acquiring on reconnect) and re-bound if replaced;
otherwise acquire a permit — non-blocking under `force`, marking the socket
`forced` when the semaphore is exhausted, else a blocking acquire whose
exhaustion raises `socket.timeout` (blocking waits are modelled as immediate
availability) — then pop an idle socket (health-checking it) or connect a
fresh one, stamp `forced`, bind the socket when the task held the
`NO_SOCKET_YET` sentinel, and stamp `last_checkout`. -/
def Pool.get_socket (p0 : Pool) (force : Bool) (pid tid : Nat) (now : Int)
    (connectOk pollClosed : Bool) : Except (GetErr × Pool) (Pool × Nat) :=
  let p := if ¬(p0.pid = pid) then p0.reset pid else p0
  match p.lookupTid tid with
  | some (.sock s) =>
    match p.check_sock s now pid connectOk pollClosed true with
    | .error e => .error e
    | .ok (p1, checked) =>
      let p2 := if ¬(checked = s) then p1.setTid tid (.sock checked) else p1
      .ok (p2.setLastCheckout checked now, checked)
  | req =>
    let finish : Bool → Pool → Nat → Pool × Nat := fun forcedFlag p2 sid2 =>
      let p3 := p2.setForced sid2 forcedFlag
      let p4 :=
        if req = some .noSocketYet then p3.setTid tid (.sock sid2) else p3
      (p4.setLastCheckout sid2 now, sid2)
    if force then
      match p.semTryAcquire with
      | (acquired, p1) =>
        let forcedFlag := !acquired
        match p1.idle with
        | sid :: rest =>
          match Pool.check_sock { p1 with idle := rest } sid now pid connectOk
              pollClosed false with
          | .error e => .error e
          | .ok (p2, sid2) => .ok (finish forcedFlag p2 sid2)
        | [] =>
          if connectOk then
            .ok (finish forcedFlag (p1.newSock now).1 (p1.newSock now).2)
          else .error (.connFailure, p1)
    else
      match p.semTryAcquire with
      | (false, p1) => .error (.timeout, p1)
      | (true, p1) =>
        match p1.idle with
        | sid :: rest =>
          match Pool.check_sock { p1 with idle := rest } sid now pid connectOk
              pollClosed false with
          | .error e => .error e
          | .ok (p2, sid2) => .ok (finish false p2 sid2)
        | [] =>
          if connectOk then
            .ok (finish false (p1.newSock now).1 (p1.newSock now).2)
          else .error (.connFailure, p1)

/-- One iteration of `check_request_socks`: skip an absent binding or the
`NO_SOCKET_YET` sentinel; a request socket idle for more than `net_timeout`
seconds is closed, handed to `maybe_return_socket`, and the binding reset to
`NO_SOCKET_YET`.  `mtid` is the monitor task invoking the loop. -/
def Pool.check_tid (p : Pool) (pid mtid : Nat) (now : Int) (tid : Nat) :
    Pool :=
  match p.lookupTid tid with
  | none => p
  | some .noSocketYet => p
  | some (.sock sid) =>
    if now - (p.getSock sid).last_checkout > p.net_timeout then
      ((p.closeSock sid).maybe_return_socket sid pid mtid).setTid tid
        .noSocketYet
    else p

/-- `check_request_socks(force=True)`, run by the pool's background monitor:
iterate over a snapshot of the bound task ids. -/
def Pool.check_request_socks (p : Pool) (pid mtid : Nat) (now : Int) : Pool :=
  (p.tid_to_sock.map Prod.fst).foldl
    (fun q tid => q.check_tid pid mtid now tid) p

/-- `end_request()`: with a zero request counter do nothing; else decrement,
and at the final decrement unbind the task and return a bound request socket
through `_return_socket`.  The thread-local `Counter` of `thread_util` is
modelled from the spec (`requestCounter : TaskLocal<int>`, absent = 0). -/
def Pool.end_request (p : Pool) (tid : Nat) : Pool :=
  let count := (alookup p.request_counter tid).getD 0
  if count = 0 then p
  else
    let p1 : Pool :=
      { p with request_counter := ainsert p.request_counter tid (count - 1) }
    if count = 1 then
      let sockinfo := p1.lookupTid tid
      let p2 : Pool := { p1 with tid_to_sock := aremove p1.tid_to_sock tid }
      match sockinfo with
      | some (.sock sid) => p2.return_socket sid
      | _ => p2
    else p1

/-! ## Structural lemmas about pool operations -/

theorem alookup_eq_none_aupdate {α β : Type} [DecidableEq α]
    (l : List (α × β)) (k : α) (v : β) (h : alookup l k = none) :
    aupdate l k v = l := by
  induction l with
  | nil => rfl
  | cons p rest ih =>
    obtain ⟨pk, pv⟩ := p
    by_cases hk : pk = k
    · simp [alookup, hk] at h
    · simp only [alookup, hk, if_false] at h
      simp [aupdate, hk, ih h]

theorem mem_keys_of_alookup {α β : Type} [DecidableEq α]
    (l : List (α × β)) (k : α) (v : β) (h : alookup l k = some v) :
    k ∈ l.map Prod.fst := by
  induction l with
  | nil => simp [alookup] at h
  | cons p rest ih =>
    obtain ⟨pk, pv⟩ := p
    by_cases hk : pk = k
    · simp [hk]
    · simp only [alookup, hk, if_false] at h
      simp [ih h]

theorem Pool.getSock_of_alookup (p : Pool) (sid : Nat) (sd : SockData)
    (h : alookup p.socks sid = some sd) : p.getSock sid = sd := by
  unfold Pool.getSock
  rw [h]
  rfl

theorem Pool.alookup_setSock_self (p : Pool) (sid : Nat) (sd w : SockData)
    (h : alookup p.socks sid = some w) :
    alookup (p.setSock sid sd).socks sid = some sd :=
  alookup_aupdate_self p.socks sid sd w h

theorem Pool.alookup_setSock_ne (p : Pool) (sid sid2 : Nat) (sd : SockData)
    (h : sid2 ≠ sid) :
    alookup (p.setSock sid sd).socks sid2 = alookup p.socks sid2 :=
  alookup_aupdate_ne p.socks sid sid2 sd h

theorem Pool.closeSock_forced (p : Pool) (sid : Nat) :
    ((p.closeSock sid).getSock sid).forced = (p.getSock sid).forced := by
  cases h : alookup p.socks sid with
  | none =>
    unfold Pool.closeSock Pool.setSock
    rw [alookup_eq_none_aupdate p.socks sid _ h]
  | some sd =>
    have h2 := Pool.alookup_setSock_self p sid
      { p.getSock sid with closed := true } sd h
    unfold Pool.closeSock
    rw [Pool.getSock_of_alookup _ sid _ h2]

theorem Pool.closeSock_closed (p : Pool) (sid : Nat) (sd : SockData)
    (h : alookup p.socks sid = some sd) :
    ((p.closeSock sid).getSock sid).closed = true := by
  have h2 := Pool.alookup_setSock_self p sid
    { p.getSock sid with closed := true } sd h
  unfold Pool.closeSock at h2 ⊢
  rw [Pool.getSock_of_alookup _ sid _ h2]

/-- C10: calling `end_request` on a task whose request counter is zero
(never started, or already ended) leaves the pool entirely unchanged. -/
theorem c10_end_request_zero_counter (p : Pool) (tid : Nat)
    (h : (alookup p.request_counter tid).getD 0 = 0) :
    p.end_request tid = p := by
  simp [Pool.end_request, h]

/-- C10 witness: a pool whose counter map holds an explicit zero for the
task. -/
theorem c10_end_request_zero_counter_witness :
    Pool.end_request
        ⟨0, 1, some 2, 10, 2, [5], [(5, ⟨false, 0, false, 0⟩)],
          [(7, .sock 5)], [(7, 0)], 6⟩ 7 =
      ⟨0, 1, some 2, 10, 2, [5], [(5, ⟨false, 0, false, 0⟩)],
        [(7, .sock 5)], [(7, 0)], 6⟩ :=
  c10_end_request_zero_counter
    ⟨0, 1, some 2, 10, 2, [5], [(5, ⟨false, 0, false, 0⟩)],
      [(7, .sock 5)], [(7, 0)], 6⟩ 7 (by decide)

/-- The C3 failing input: an unlimited pool (`max_size = None`) holding one
open, current-generation socket out on loan and an empty idle set. -/
def c3pool : Pool :=
  { pool_id := 0, pid := 1, max_size := none, net_timeout := 10, sem := 0,
    idle := [], socks := [(0, ⟨false, 0, false, 0⟩)], tid_to_sock := [],
    request_counter := [], next_sid := 1 }

/-- C3 (code bug): in Python 2 `len(self.sockets) < None` is `False` (`None`
orders below every integer), so a pool with `max_size = None` — documented
as "disable the limit" — closes and discards every returned socket instead
of pooling it: the idle set stays empty and the returned current-generation
socket ends up closed. -/
theorem c3_unlimited_pool_discards :
    (c3pool.getSock 0).closed = false ∧
      (c3pool.getSock 0).pool_id = c3pool.pool_id ∧
      c3pool.max_size = none ∧
      (c3pool.return_socket 0).idle = [] ∧
      ((c3pool.return_socket 0).getSock 0).closed = true := by decide

/-! ## Claim C6: forced sockets and semaphore accounting -/

def gotSid (r : Except (GetErr × Pool) (Pool × Nat)) : Option Nat :=
  match r with
  | .ok (_, sid) => some sid
  | .error _ => none

def gotPool (r : Except (GetErr × Pool) (Pool × Nat)) : Option Pool :=
  match r with
  | .ok (q, _) => some q
  | .error _ => none

theorem Pool.newSock_snd (p : Pool) (now : Int) :
    (p.newSock now).2 = p.next_sid := rfl

theorem Pool.semRelease_sem_congr (a b : Pool) (h1 : a.max_size = b.max_size)
    (h2 : a.sem = b.sem) : a.semRelease.sem = b.semRelease.sem := by
  cases h : b.max_size with
  | none => simp [Pool.semRelease, h1, h, h2]
  | some k => simp [Pool.semRelease, h1, h, h2]

theorem Pool.return_socket_sem (q : Pool) (sid : Nat) :
    (q.return_socket sid).sem =
      if (q.getSock sid).forced = true then q.sem else q.semRelease.sem := by
  simp only [Pool.return_socket]
  by_cases hA : pyLtLenMax q.idle.length q.max_size = true ∧
      (q.getSock sid).pool_id = q.pool_id
  · rw [if_pos hA]
    have hX : ((({ q with
        idle := if sid ∈ q.idle then q.idle else sid :: q.idle } :
          Pool)).getSock sid).forced = (q.getSock sid).forced := rfl
    rw [hX]
    by_cases hf : (q.getSock sid).forced = true
    · rw [if_pos hf, if_pos hf]
      rfl
    · rw [if_neg hf, if_neg hf]
      exact Pool.semRelease_sem_congr _ q rfl rfl
  · rw [if_neg hA]
    rw [Pool.closeSock_forced]
    by_cases hf : (q.getSock sid).forced = true
    · rw [if_pos hf, if_pos hf]
      rfl
    · rw [if_neg hf, if_neg hf]
      exact Pool.semRelease_sem_congr _ q rfl rfl

theorem Pool.maybe_return_socket_sem (q : Pool) (sid pid tid : Nat)
    (hpid : q.pid = pid) :
    (q.maybe_return_socket sid pid tid).sem =
      if (q.getSock sid).closed = true then
        (if (q.getSock sid).forced = true then q.sem else q.semRelease.sem)
      else if q.lookupTid tid = some (.sock sid) then q.sem
      else (q.return_socket sid).sem := by
  unfold Pool.maybe_return_socket
  rw [if_neg (by simp [hpid])]
  by_cases hc : (q.getSock sid).closed = true
  · rw [if_pos hc, if_pos hc]
    by_cases hf : (q.getSock sid).forced = true
    · rw [if_pos hf, if_pos hf]
      rfl
    · rw [if_neg hf, if_neg hf]
  · rw [if_neg hc, if_neg hc]
    by_cases hr : q.lookupTid tid = some (.sock sid)
    · rw [if_pos hr, if_pos hr]
    · rw [if_neg hr, if_neg hr]

theorem Pool.semRelease_sem_bounded (q : Pool) (m : Nat)
    (h : q.max_size = some m) : q.semRelease.sem = q.sem + 1 := by
  simp [Pool.semRelease, h]

theorem Pool.getSock_setTid (p : Pool) (tid : Nat) (e : TidEntry) (sid : Nat) :
    (p.setTid tid e).getSock sid = p.getSock sid := rfl

theorem Pool.getSock_setForced_self (p : Pool) (sid : Nat) (b : Bool)
    (h : (alookup p.socks sid).isSome = true) :
    (p.setForced sid b).getSock sid = { p.getSock sid with forced := b } := by
  obtain ⟨w, hw⟩ := Option.isSome_iff_exists.1 h
  exact Pool.getSock_of_alookup _ _ _ (Pool.alookup_setSock_self p sid _ w hw)

theorem Pool.getSock_setLastCheckout_self (p : Pool) (sid : Nat) (t : Int)
    (h : (alookup p.socks sid).isSome = true) :
    (p.setLastCheckout sid t).getSock sid =
      { p.getSock sid with last_checkout := t } := by
  obtain ⟨w, hw⟩ := Option.isSome_iff_exists.1 h
  exact Pool.getSock_of_alookup _ _ _ (Pool.alookup_setSock_self p sid _ w hw)

theorem get_socket_force_exhausted (p : Pool) (pid tid : Nat) (now : Int)
    (m : Nat) (hpid : p.pid = pid) (hmax : p.max_size = some m)
    (hsem : p.sem = 0)
    (hreq : p.lookupTid tid = none ∨ p.lookupTid tid = some .noSocketYet)
    (hidle : p.idle = []) :
    gotSid (p.get_socket true pid tid now true false) = some p.next_sid ∧
      (gotPool (p.get_socket true pid tid now true false)).map
        (fun q => (q.getSock p.next_sid).forced) = some true := by
  have hacq : p.semTryAcquire = (false, p) := by
    simp [Pool.semTryAcquire, hmax, hsem]
  have hg0 : alookup ((p.newSock now).1).socks p.next_sid =
      some ⟨false, now, false, p.pool_id⟩ := by
    show alookup (ainsert p.socks p.next_sid ⟨false, now, false, p.pool_id⟩)
      p.next_sid = _
    exact alookup_ainsert_self _ _ _
  have hpres0 : (alookup ((p.newSock now).1).socks p.next_sid).isSome =
      true := by
    rw [hg0]
    rfl
  have hg1 : alookup ((p.newSock now).1.setForced p.next_sid
      true).socks p.next_sid =
      some { ((p.newSock now).1).getSock p.next_sid with forced := true } :=
    Pool.alookup_setSock_self ((p.newSock now).1) p.next_sid _ _ hg0
  have hpres1 : (alookup ((p.newSock now).1.setForced p.next_sid
      true).socks p.next_sid).isSome = true := by
    rw [hg1]
    rfl
  have hforced1 : (((p.newSock now).1.setForced p.next_sid true).getSock
      p.next_sid).forced = true := by
    rw [Pool.getSock_setForced_self _ _ _ hpres0]
  rcases hreq with h | h
  · constructor
    · simp [gotSid, Pool.get_socket, hpid, h, hacq, hidle, Pool.newSock_snd]
    · simp [gotPool, Pool.get_socket, hpid, h, hacq, hidle,
        Pool.newSock_snd]
      rw [Pool.getSock_setLastCheckout_self _ _ _ hpres1]
      simp [hforced1]
  · constructor
    · simp [gotSid, Pool.get_socket, hpid, h, hacq, hidle, Pool.newSock_snd]
    · simp [gotPool, Pool.get_socket, hpid, h, hacq, hidle,
        Pool.newSock_snd]
      have hpres1b : (alookup (((p.newSock now).1.setForced p.next_sid
          true).setTid tid (.sock p.next_sid)).socks p.next_sid).isSome =
          true := hpres1
      rw [Pool.getSock_setLastCheckout_self _ _ _ hpres1b]
      have hst : (((p.newSock now).1.setForced p.next_sid true).setTid tid
          (.sock p.next_sid)).getSock p.next_sid =
          ((p.newSock now).1.setForced p.next_sid true).getSock p.next_sid :=
        rfl
      rw [hst]
      simp [hforced1]

/-- C6: (a) `get_socket(force=True)` with the semaphore exhausted does not
block or raise: it skips the permit and hands out a freshly connected socket
stamped `forced = True`; (b) returning a forced socket — through
`_return_socket` or `maybe_return_socket` — never releases a permit; (c)
returning a non-forced socket (one that the call actually relinquishes:
either closed or not the task's bound request socket) releases exactly one
permit. -/
theorem c6_forced_socket_semantics (p : Pool) (pid tid : Nat) (now : Int)
    (m : Nat) (hpid : p.pid = pid) (hmax : p.max_size = some m)
    (hsem : p.sem = 0)
    (hreq : p.lookupTid tid = none ∨ p.lookupTid tid = some .noSocketYet)
    (hidle : p.idle = [])
    (q : Pool) (sidb pidb tidb : Nat) (hqpid : q.pid = pidb)
    (hqf : (q.getSock sidb).forced = true)
    (r : Pool) (sidc pidc tidc : Nat) (mc : Nat) (hrpid : r.pid = pidc)
    (hrmax : r.max_size = some mc) (hrf : (r.getSock sidc).forced = false)
    (hdisp : (r.getSock sidc).closed = true ∨
      ¬(r.lookupTid tidc = some (.sock sidc))) :
    (gotSid (p.get_socket true pid tid now true false) = some p.next_sid ∧
        (gotPool (p.get_socket true pid tid now true false)).map
          (fun q2 => (q2.getSock p.next_sid).forced) = some true) ∧
      ((q.return_socket sidb).sem = q.sem ∧
        (q.maybe_return_socket sidb pidb tidb).sem = q.sem) ∧
      ((r.return_socket sidc).sem = r.sem + 1 ∧
        (r.maybe_return_socket sidc pidc tidc).sem = r.sem + 1) := by
  refine ⟨get_socket_force_exhausted p pid tid now m hpid hmax hsem hreq
    hidle, ⟨?_, ?_⟩, ⟨?_, ?_⟩⟩
  · rw [Pool.return_socket_sem, if_pos hqf]
  · rw [Pool.maybe_return_socket_sem q sidb pidb tidb hqpid]
    by_cases hc : (q.getSock sidb).closed = true
    · rw [if_pos hc, if_pos hqf]
    · rw [if_neg hc]
      by_cases hr : q.lookupTid tidb = some (.sock sidb)
      · rw [if_pos hr]
      · rw [if_neg hr, Pool.return_socket_sem, if_pos hqf]
  · rw [Pool.return_socket_sem, if_neg (by simp [hrf]),
      Pool.semRelease_sem_bounded r mc hrmax]
  · rw [Pool.maybe_return_socket_sem r sidc pidc tidc hrpid]
    rcases hdisp with hc | hnr
    · rw [if_pos hc, if_neg (by simp [hrf]),
        Pool.semRelease_sem_bounded r mc hrmax]
    · by_cases hc : (r.getSock sidc).closed = true
      · rw [if_pos hc, if_neg (by simp [hrf]),
          Pool.semRelease_sem_bounded r mc hrmax]
      · rw [if_neg hc, if_neg hnr, Pool.return_socket_sem,
          if_neg (by simp [hrf]), Pool.semRelease_sem_bounded r mc hrmax]

/-- C6 witness: a concrete exhausted bounded pool for the forced checkout, a
loaned forced socket, and a loaned non-forced closed socket. -/
theorem c6_forced_socket_semantics_witness :
    (gotSid (Pool.get_socket ⟨0, 5, some 2, 10, 0, [], [], [], [], 3⟩ true 5
          7 100 true false) = some 3 ∧
        (gotPool (Pool.get_socket ⟨0, 5, some 2, 10, 0, [], [], [], [], 3⟩
            true 5 7 100 true false)).map
          (fun q2 => (q2.getSock 3).forced) = some true) ∧
      ((Pool.return_socket
            ⟨0, 5, some 2, 10, 1, [], [(4, ⟨false, 0, true, 0⟩)], [], [], 5⟩
            4).sem = 1 ∧
        (Pool.maybe_return_socket
            ⟨0, 5, some 2, 10, 1, [], [(4, ⟨false, 0, true, 0⟩)], [], [], 5⟩
            4 5 7).sem = 1) ∧
      ((Pool.return_socket
            ⟨0, 5, some 2, 10, 1, [], [(4, ⟨true, 0, false, 0⟩)], [], [], 5⟩
            4).sem = 1 + 1 ∧
        (Pool.maybe_return_socket
            ⟨0, 5, some 2, 10, 1, [], [(4, ⟨true, 0, false, 0⟩)], [], [], 5⟩
            4 5 7).sem = 1 + 1) :=
  c6_forced_socket_semantics ⟨0, 5, some 2, 10, 0, [], [], [], [], 3⟩ 5 7 100
    2 rfl rfl rfl (Or.inl rfl) rfl
    ⟨0, 5, some 2, 10, 1, [], [(4, ⟨false, 0, true, 0⟩)], [], [], 5⟩ 4 5 7
    rfl (by decide)
    ⟨0, 5, some 2, 10, 1, [], [(4, ⟨true, 0, false, 0⟩)], [], [], 5⟩ 4 5 7 2
    rfl rfl (by decide) (Or.inl (by decide))

/-! ## Claim C9: the monitor's request-socket sweep -/

theorem Pool.semRelease_pid (q : Pool) : q.semRelease.pid = q.pid := by
  cases h : q.max_size <;> simp [Pool.semRelease, h]

theorem Pool.semRelease_max_size (q : Pool) :
    q.semRelease.max_size = q.max_size := by
  cases h : q.max_size <;> simp [Pool.semRelease, h]

theorem Pool.semRelease_net_timeout (q : Pool) :
    q.semRelease.net_timeout = q.net_timeout := by
  cases h : q.max_size <;> simp [Pool.semRelease, h]

theorem Pool.semRelease_tid_to_sock (q : Pool) :
    q.semRelease.tid_to_sock = q.tid_to_sock := by
  cases h : q.max_size <;> simp [Pool.semRelease, h]

theorem Pool.semRelease_socks (q : Pool) : q.semRelease.socks = q.socks := by
  cases h : q.max_size <;> simp [Pool.semRelease, h]

theorem Pool.closeSock_closed_always (q : Pool) (s : Nat) :
    ((q.closeSock s).getSock s).closed = true := by
  cases h : alookup q.socks s with
  | none =>
    have heq : (q.closeSock s).getSock s = q.getSock s := by
      unfold Pool.closeSock Pool.setSock Pool.getSock
      rw [alookup_eq_none_aupdate q.socks s _ h]
    rw [heq]
    unfold Pool.getSock
    rw [h]
    rfl
  | some sd => exact Pool.closeSock_closed q s sd h

theorem Pool.maybe_return_socket_closed (q : Pool) (sid pid tid : Nat)
    (hpid : q.pid = pid) (hclosed : (q.getSock sid).closed = true) :
    q.maybe_return_socket sid pid tid =
      if (q.getSock sid).forced = true then q.setForced sid false
      else q.semRelease := by
  unfold Pool.maybe_return_socket
  rw [if_neg (by simp [hpid]), if_pos hclosed]

theorem Pool.check_tid_not_bound (q : Pool) (pid mtid t : Nat) (now : Int)
    (h : q.lookupTid t = none ∨ q.lookupTid t = some .noSocketYet) :
    q.check_tid pid mtid now t = q := by
  rcases h with h | h <;> simp [Pool.check_tid, h]

theorem Pool.check_tid_bound_fresh (q : Pool) (pid mtid t : Nat) (now : Int)
    (s : Nat) (hb : q.lookupTid t = some (.sock s))
    (hst : ¬(now - (q.getSock s).last_checkout > q.net_timeout)) :
    q.check_tid pid mtid now t = q := by
  simp [Pool.check_tid, hb, hst]

theorem Pool.check_tid_bound_stale (q : Pool) (pid mtid t : Nat) (now : Int)
    (s : Nat) (hb : q.lookupTid t = some (.sock s))
    (hst : now - (q.getSock s).last_checkout > q.net_timeout) :
    q.check_tid pid mtid now t =
      ((q.closeSock s).maybe_return_socket s pid mtid).setTid t
        .noSocketYet := by
  simp [Pool.check_tid, hb, hst]

theorem Pool.check_tid_effects (q : Pool) (pid mtid t : Nat) (now : Int)
    (hpid : q.pid = pid) :
    (q.check_tid pid mtid now t).pid = pid ∧
      (q.check_tid pid mtid now t).max_size = q.max_size ∧
      (q.check_tid pid mtid now t).net_timeout = q.net_timeout ∧
      (∀ t2, ¬(t2 = t) →
        (q.check_tid pid mtid now t).lookupTid t2 = q.lookupTid t2) ∧
      (∀ s2, (∀ s, q.lookupTid t = some (.sock s) → ¬(s2 = s)) →
        alookup (q.check_tid pid mtid now t).socks s2 =
          alookup q.socks s2) := by
  cases hb : q.lookupTid t with
  | none =>
    rw [Pool.check_tid_not_bound q pid mtid t now (Or.inl hb)]
    exact ⟨hpid, rfl, rfl, fun _ _ => rfl, fun _ _ => rfl⟩
  | some e =>
    cases e with
    | noSocketYet =>
      rw [Pool.check_tid_not_bound q pid mtid t now (Or.inr hb)]
      exact ⟨hpid, rfl, rfl, fun _ _ => rfl, fun _ _ => rfl⟩
    | sock s =>
      by_cases hst : now - (q.getSock s).last_checkout > q.net_timeout
      · rw [Pool.check_tid_bound_stale q pid mtid t now s hb hst]
        have hpid1 : (q.closeSock s).pid = pid := hpid
        have hcl : ((q.closeSock s).getSock s).closed = true :=
          Pool.closeSock_closed_always q s
        rw [Pool.maybe_return_socket_closed _ _ _ _ hpid1 hcl]
        by_cases hf : ((q.closeSock s).getSock s).forced = true
        · rw [if_pos hf]
          refine ⟨hpid, rfl, rfl, ?_, ?_⟩
          · intro t2 ht2
            show alookup (ainsert q.tid_to_sock t TidEntry.noSocketYet) t2 =
              alookup q.tid_to_sock t2
            exact alookup_ainsert_ne _ _ _ _ ht2
          · intro s2 hs2
            have hne : ¬(s2 = s) := hs2 s rfl
            show alookup (aupdate (q.closeSock s).socks s
              { (q.closeSock s).getSock s with forced := false }) s2 =
              alookup q.socks s2
            rw [alookup_aupdate_ne _ _ _ _ hne]
            show alookup (aupdate q.socks s
              { q.getSock s with closed := true }) s2 = alookup q.socks s2
            exact alookup_aupdate_ne _ _ _ _ hne
        · rw [if_neg hf]
          refine ⟨?_, ?_, ?_, ?_, ?_⟩
          · show ((q.closeSock s).semRelease).pid = pid
            rw [Pool.semRelease_pid]
            exact hpid
          · show ((q.closeSock s).semRelease).max_size = q.max_size
            rw [Pool.semRelease_max_size]
            rfl
          · show ((q.closeSock s).semRelease).net_timeout = q.net_timeout
            rw [Pool.semRelease_net_timeout]
            rfl
          · intro t2 ht2
            show alookup (ainsert ((q.closeSock s).semRelease).tid_to_sock t
              TidEntry.noSocketYet) t2 = alookup q.tid_to_sock t2
            rw [alookup_ainsert_ne _ _ _ _ ht2, Pool.semRelease_tid_to_sock]
            rfl
          · intro s2 hs2
            have hne : ¬(s2 = s) := hs2 s rfl
            show alookup (((q.closeSock s).semRelease).socks) s2 =
              alookup q.socks s2
            rw [Pool.semRelease_socks]
            show alookup (aupdate q.socks s
              { q.getSock s with closed := true }) s2 = alookup q.socks s2
            exact alookup_aupdate_ne _ _ _ _ hne
      · rw [Pool.check_tid_bound_fresh q pid mtid t now s hb hst]
        exact ⟨hpid, rfl, rfl, fun _ _ => rfl, fun _ _ => rfl⟩

theorem Pool.check_tid_stale_spec (q : Pool) (pid mtid t : Nat) (now : Int)
    (s : Nat) (sd : SockData) (m : Nat)
    (hpid : q.pid = pid) (hmax : q.max_size = some m)
    (hb : q.lookupTid t = some (.sock s))
    (hsd : alookup q.socks s = some sd)
    (hst : now - sd.last_checkout > q.net_timeout) :
    (q.check_tid pid mtid now t).lookupTid t = some .noSocketYet ∧
      (∃ sd2, alookup (q.check_tid pid mtid now t).socks s = some sd2 ∧
        sd2.closed = true) ∧
      (q.check_tid pid mtid now t).sem =
        q.sem + (if sd.forced = true then 0 else 1) := by
  have hgs : q.getSock s = sd := Pool.getSock_of_alookup q s sd hsd
  have hst2 : now - (q.getSock s).last_checkout > q.net_timeout := by
    rw [hgs]
    exact hst
  rw [Pool.check_tid_bound_stale q pid mtid t now s hb hst2]
  have hpid1 : (q.closeSock s).pid = pid := hpid
  have hcl : ((q.closeSock s).getSock s).closed = true :=
    Pool.closeSock_closed_always q s
  rw [Pool.maybe_return_socket_closed _ _ _ _ hpid1 hcl]
  have hq1 : alookup (q.closeSock s).socks s =
      some { q.getSock s with closed := true } :=
    Pool.alookup_setSock_self q s _ sd hsd
  have hq1g : (q.closeSock s).getSock s =
      { q.getSock s with closed := true } :=
    Pool.getSock_of_alookup _ _ _ hq1
  have hfeq : ((q.closeSock s).getSock s).forced = sd.forced := by
    rw [hq1g, hgs]
  by_cases hf : sd.forced = true
  · rw [if_pos (hfeq.trans hf)]
    refine ⟨?_, ?_, ?_⟩
    · show alookup (ainsert q.tid_to_sock t TidEntry.noSocketYet) t =
        some TidEntry.noSocketYet
      exact alookup_ainsert_self _ _ _
    · refine ⟨{ (q.closeSock s).getSock s with forced := false }, ?_, ?_⟩
      · show alookup (aupdate (q.closeSock s).socks s
          { (q.closeSock s).getSock s with forced := false }) s = _
        exact Pool.alookup_setSock_self (q.closeSock s) s _ _ hq1
      · show ((q.closeSock s).getSock s).closed = true
        exact hcl
    · show q.sem = q.sem + (if sd.forced = true then 0 else 1)
      rw [if_pos hf]
      rfl
  · have hf1 : ¬(((q.closeSock s).getSock s).forced = true) := by
      rw [hfeq]
      exact hf
    rw [if_neg hf1]
    refine ⟨?_, ?_, ?_⟩
    · show alookup (ainsert ((q.closeSock s).semRelease).tid_to_sock t
        TidEntry.noSocketYet) t = some TidEntry.noSocketYet
      exact alookup_ainsert_self _ _ _
    · refine ⟨{ q.getSock s with closed := true }, ?_, ?_⟩
      · show alookup (((q.closeSock s).semRelease).socks) s = _
        rw [Pool.semRelease_socks]
        exact hq1
      · show (({ q.getSock s with closed := true } : SockData)).closed = true
        rfl
    · show ((q.closeSock s).semRelease).sem =
        q.sem + (if sd.forced = true then 0 else 1)
      rw [if_neg hf]
      have hmax1 : (q.closeSock s).max_size = some m := hmax
      rw [Pool.semRelease_sem_bounded _ m hmax1]
      rfl

/-- Whether `check_request_socks` will release a permit for the task `t`'s
binding: a bound socket, present, idle past `net_timeout`, and not forced. -/
def staleFlag (p : Pool) (now : Int) (t : Nat) : Bool :=
  match p.lookupTid t with
  | some (.sock s) =>
    match alookup p.socks s with
    | some sd =>
      decide (now - sd.last_checkout > p.net_timeout) && !sd.forced
    | none => false
  | _ => false

def staleReleaseCount (p : Pool) (now : Int) (ts : List Nat) : Nat :=
  (ts.filter (fun t => staleFlag p now t)).length

/-- The permits released in one full sweep of `check_request_socks`. -/
def pool_stale_release (p : Pool) (now : Int) : Nat :=
  staleReleaseCount p now (p.tid_to_sock.map Prod.fst)

theorem check_fold_frame (pid mtid : Nat) (now : Int) (t0 s0 : Nat) :
    ∀ (ts : List Nat) (q : Pool), q.pid = pid → t0 ∉ ts → ts.Nodup →
      (∀ t ∈ ts, ∀ s, q.lookupTid t = some (.sock s) → ¬(s0 = s)) →
      (ts.foldl (fun r t => r.check_tid pid mtid now t) q).lookupTid t0 =
          q.lookupTid t0 ∧
        alookup (ts.foldl (fun r t => r.check_tid pid mtid now t) q).socks
          s0 = alookup q.socks s0 := by
  intro ts
  induction ts with
  | nil => intro q _ _ _ _; exact ⟨rfl, rfl⟩
  | cons t rest ih =>
    intro q hq ht0 hnd hs
    have heff := Pool.check_tid_effects q pid mtid t now hq
    have ht0t : ¬(t0 = t) := fun h => ht0 (h ▸ List.mem_cons_self t rest)
    have ht0rest : t0 ∉ rest := fun h => ht0 (List.mem_cons_of_mem t h)
    have hndr : rest.Nodup := (List.nodup_cons.1 hnd).2
    have htrest : t ∉ rest := (List.nodup_cons.1 hnd).1
    have hbind : ∀ t2 ∈ rest,
        (q.check_tid pid mtid now t).lookupTid t2 = q.lookupTid t2 := by
      intro t2 h2
      exact heff.2.2.2.1 t2 (fun he => htrest (he ▸ h2))
    have hrec := ih (q.check_tid pid mtid now t) heff.1 ht0rest hndr
      (by
        intro t2 h2 s h3
        rw [hbind t2 h2] at h3
        exact hs t2 (List.mem_cons_of_mem t h2) s h3)
    refine ⟨?_, ?_⟩
    · show (rest.foldl (fun r t => r.check_tid pid mtid now t)
        (q.check_tid pid mtid now t)).lookupTid t0 = q.lookupTid t0
      rw [hrec.1]
      exact heff.2.2.2.1 t0 ht0t
    · show alookup (rest.foldl (fun r t => r.check_tid pid mtid now t)
        (q.check_tid pid mtid now t)).socks s0 = alookup q.socks s0
      rw [hrec.2]
      exact heff.2.2.2.2 s0 (fun s h => hs t (List.mem_cons_self t rest) s h)

theorem check_fold_spec (p : Pool) (pid mtid : Nat) (now : Int) (m : Nat)
    (hmaxp : p.max_size = some m) :
    ∀ (ts : List Nat) (q : Pool),
      q.pid = pid → q.max_size = p.max_size → q.net_timeout = p.net_timeout →
      ts.Nodup →
      (∀ t ∈ ts, q.lookupTid t = p.lookupTid t) →
      (∀ t ∈ ts, ∀ s, p.lookupTid t = some (.sock s) →
        alookup q.socks s = alookup p.socks s) →
      (∀ t1, t1 ∈ ts → ∀ t2, t2 ∈ ts → ∀ s,
        p.lookupTid t1 = some (.sock s) → p.lookupTid t2 = some (.sock s) →
        t1 = t2) →
      (∀ t ∈ ts, ∀ s, p.lookupTid t = some (.sock s) →
        (alookup p.socks s).isSome = true) →
      ((ts.foldl (fun r t => r.check_tid pid mtid now t) q).sem =
          q.sem + staleReleaseCount p now ts) ∧
      (∀ t ∈ ts, ∀ s sd, p.lookupTid t = some (.sock s) →
        alookup p.socks s = some sd →
        now - sd.last_checkout > p.net_timeout →
        (ts.foldl (fun r t => r.check_tid pid mtid now t) q).lookupTid t =
            some .noSocketYet ∧
          (∃ sd2, alookup ((ts.foldl (fun r t => r.check_tid pid mtid now t)
            q).socks) s = some sd2 ∧ sd2.closed = true)) := by
  intro ts
  induction ts with
  | nil =>
    intro q _ _ _ _ _ _ _ _
    exact ⟨by simp [staleReleaseCount], fun t ht => absurd ht (by simp)⟩
  | cons t rest ih =>
    intro q hqpid hqmax hqnet hnd hbind hsocks hinj hpres
    have hndr : rest.Nodup := (List.nodup_cons.1 hnd).2
    have htrest : t ∉ rest := (List.nodup_cons.1 hnd).1
    have hbindr : ∀ t2 ∈ rest, q.lookupTid t2 = p.lookupTid t2 :=
      fun t2 h2 => hbind t2 (List.mem_cons_of_mem t h2)
    have hsocksr : ∀ t2 ∈ rest, ∀ s, p.lookupTid t2 = some (.sock s) →
        alookup q.socks s = alookup p.socks s :=
      fun t2 h2 => hsocks t2 (List.mem_cons_of_mem t h2)
    have hinjr : ∀ t1, t1 ∈ rest → ∀ t2, t2 ∈ rest → ∀ s,
        p.lookupTid t1 = some (.sock s) → p.lookupTid t2 = some (.sock s) →
        t1 = t2 :=
      fun t1 h1 t2 h2 => hinj t1 (List.mem_cons_of_mem t h1) t2
        (List.mem_cons_of_mem t h2)
    have hpresr : ∀ t2 ∈ rest, ∀ s, p.lookupTid t2 = some (.sock s) →
        (alookup p.socks s).isSome = true :=
      fun t2 h2 => hpres t2 (List.mem_cons_of_mem t h2)
    cases hbp : p.lookupTid t with
    | none =>
      have hbq : q.lookupTid t = none :=
        (hbind t (List.mem_cons_self t rest)).trans hbp
      have hstep : q.check_tid pid mtid now t = q :=
        Pool.check_tid_not_bound _ _ _ _ _ (Or.inl hbq)
      have hcount : staleReleaseCount p now (t :: rest) =
          staleReleaseCount p now rest := by
        simp [staleReleaseCount, List.filter_cons, staleFlag, hbp]
      have hrec := ih q hqpid hqmax hqnet hndr hbindr hsocksr hinjr hpresr
      constructor
      · simp only [List.foldl_cons]
        rw [hstep, hcount]
        exact hrec.1
      · intro t' ht' s sd h1 h2 h3
        rcases List.mem_cons.1 ht' with rfl | hmem
        · rw [h1] at hbp
          exact absurd hbp (by simp)
        · simp only [List.foldl_cons]
          rw [hstep]
          exact hrec.2 t' hmem s sd h1 h2 h3
    | some e =>
      cases e with
      | noSocketYet =>
        have hbq : q.lookupTid t = some .noSocketYet :=
          (hbind t (List.mem_cons_self t rest)).trans hbp
        have hstep : q.check_tid pid mtid now t = q :=
          Pool.check_tid_not_bound _ _ _ _ _ (Or.inr hbq)
        have hcount : staleReleaseCount p now (t :: rest) =
            staleReleaseCount p now rest := by
          simp [staleReleaseCount, List.filter_cons, staleFlag, hbp]
        have hrec := ih q hqpid hqmax hqnet hndr hbindr hsocksr hinjr hpresr
        constructor
        · simp only [List.foldl_cons]
          rw [hstep, hcount]
          exact hrec.1
        · intro t' ht' s sd h1 h2 h3
          rcases List.mem_cons.1 ht' with rfl | hmem
          · rw [h1] at hbp
            exact absurd hbp (by simp)
          · simp only [List.foldl_cons]
            rw [hstep]
            exact hrec.2 t' hmem s sd h1 h2 h3
      | sock s0 =>
        have hbq : q.lookupTid t = some (.sock s0) :=
          (hbind t (List.mem_cons_self t rest)).trans hbp
        have hps0 : (alookup p.socks s0).isSome = true :=
          hpres t (List.mem_cons_self t rest) s0 hbp
        obtain ⟨sd0, hsd0⟩ := Option.isSome_iff_exists.1 hps0
        have hqs0 : alookup q.socks s0 = some sd0 := by
          rw [hsocks t (List.mem_cons_self t rest) s0 hbp, hsd0]
        by_cases hstale : now - sd0.last_checkout > p.net_timeout
        · have hstaleq : now - sd0.last_checkout > q.net_timeout := by
            rw [hqnet]
            exact hstale
          have hspec := Pool.check_tid_stale_spec q pid mtid t now s0 sd0 m
            hqpid (hqmax.trans hmaxp) hbq hqs0 hstaleq
          have heff := Pool.check_tid_effects q pid mtid t now hqpid
          have hSbind : ∀ t2 ∈ rest,
              (q.check_tid pid mtid now t).lookupTid t2 = p.lookupTid t2 := by
            intro t2 h2
            rw [heff.2.2.2.1 t2 (fun he => htrest (he ▸ h2))]
            exact hbindr t2 h2
          have hSsocks : ∀ t2 ∈ rest, ∀ s, p.lookupTid t2 = some (.sock s) →
              alookup (q.check_tid pid mtid now t).socks s =
                alookup p.socks s := by
            intro t2 h2 s h3
            have hne : ¬(s = s0) := by
              intro he
              subst he
              exact htrest ((hinj t2 (List.mem_cons_of_mem t h2) t
                (List.mem_cons_self t rest) s h3 hbp) ▸ h2)
            have hcond : ∀ s', q.lookupTid t = some (.sock s') → ¬(s = s') := by
              intro s' h'
              have h'' : TidEntry.sock s0 = TidEntry.sock s' := by
                have := hbq.symm.trans h'
                exact Option.some.inj this
              injection h'' with h3'
              rw [← h3']
              exact hne
            rw [heff.2.2.2.2 s hcond]
            exact hsocksr t2 h2 s h3
          have hrec := ih (q.check_tid pid mtid now t) heff.1
            (heff.2.1.trans hqmax) (heff.2.2.1.trans hqnet) hndr hSbind
            hSsocks hinjr hpresr
          have hflag : staleFlag p now t = !sd0.forced := by
            simp [staleFlag, hbp, hsd0, hstale]
          have hcount : staleReleaseCount p now (t :: rest) =
              (if staleFlag p now t = true then 1 else 0) +
                staleReleaseCount p now rest := by
            by_cases hfl : staleFlag p now t = true
            · simp [staleReleaseCount, List.filter_cons, hfl, Nat.add_comm]
            · simp [staleReleaseCount, List.filter_cons, hfl]
          constructor
          · simp only [List.foldl_cons]
            rw [hrec.1, hspec.2.2, hcount, hflag]
            cases hfo : sd0.forced <;> simp [hfo] <;> omega
          · intro t' ht' s sd h1 h2 h3
            rcases List.mem_cons.1 ht' with rfl | hmem
            · have hss0 : s = s0 := by
                have := hbp.symm.trans h1
                injection Option.some.inj this with h4
                exact h4.symm
              subst hss0
              have hfr := check_fold_frame pid mtid now t' s rest
                (q.check_tid pid mtid now t') heff.1 htrest hndr
                (by
                  intro t2 h2 s' h'
                  rw [hSbind t2 h2] at h'
                  intro he
                  rw [← he] at h'
                  exact htrest ((hinj t2 (List.mem_cons_of_mem t' h2) t'
                    (List.mem_cons_self t' rest) s h' hbp) ▸ h2))
              constructor
              · simp only [List.foldl_cons]
                rw [hfr.1]
                exact hspec.1
              · obtain ⟨sd2, hsd2, hcl2⟩ := hspec.2.1
                refine ⟨sd2, ?_, hcl2⟩
                simp only [List.foldl_cons]
                rw [hfr.2]
                exact hsd2
            · simp only [List.foldl_cons]
              exact hrec.2 t' hmem s sd h1 h2 h3
        · have hstaleq :
              ¬(now - (q.getSock s0).last_checkout > q.net_timeout) := by
            rw [Pool.getSock_of_alookup q s0 sd0 hqs0, hqnet]
            exact hstale
          have hstep : q.check_tid pid mtid now t = q :=
            Pool.check_tid_bound_fresh q pid mtid t now s0 hbq hstaleq
          have hcount : staleReleaseCount p now (t :: rest) =
              staleReleaseCount p now rest := by
            simp [staleReleaseCount, List.filter_cons, staleFlag, hbp, hsd0,
              hstale]
          have hrec := ih q hqpid hqmax hqnet hndr hbindr hsocksr hinjr hpresr
          constructor
          · simp only [List.foldl_cons]
            rw [hstep, hcount]
            exact hrec.1
          · intro t' ht' s sd h1 h2 h3
            rcases List.mem_cons.1 ht' with rfl | hmem
            · have hss0 : s = s0 := by
                have := hbp.symm.trans h1
                injection Option.some.inj this with h4
                exact h4.symm
              subst hss0
              rw [hsd0] at h2
              obtain rfl : sd0 = sd := Option.some.inj h2
              exact absurd h3 hstale
            · simp only [List.foldl_cons]
              rw [hstep]
              exact hrec.2 t' hmem s sd h1 h2 h3

/-- C9: when the pool's background monitor runs `check_request_socks`, every
task-bound request socket idle for more than `net_timeout` seconds is closed,
its binding is reset to `NO_SOCKET_YET`, and `maybe_return_socket` settles
the permits: the semaphore gains one permit per such socket that was not
forced.  (Hypotheses: one binding per task key, at most one task per socket,
bound sockets exist — the pool's bookkeeping invariants.) -/
theorem c9_check_request_socks (p : Pool) (pid mtid : Nat) (now : Int)
    (m : Nat) (tid sid : Nat) (sd : SockData)
    (hpid : p.pid = pid) (hmax : p.max_size = some m)
    (hkeys : (p.tid_to_sock.map Prod.fst).Nodup)
    (hinj : ∀ t1 t2 s, p.lookupTid t1 = some (.sock s) →
      p.lookupTid t2 = some (.sock s) → t1 = t2)
    (hpres : ∀ t s, p.lookupTid t = some (.sock s) →
      (alookup p.socks s).isSome = true)
    (hmem : p.lookupTid tid = some (.sock sid))
    (hsd : alookup p.socks sid = some sd)
    (hstale : now - sd.last_checkout > p.net_timeout) :
    (p.check_request_socks pid mtid now).lookupTid tid =
        some .noSocketYet ∧
      ((p.check_request_socks pid mtid now).getSock sid).closed = true ∧
      (p.check_request_socks pid mtid now).sem =
        p.sem + pool_stale_release p now := by
  have hspec := check_fold_spec p pid mtid now m hmax
    (p.tid_to_sock.map Prod.fst) p hpid rfl rfl hkeys
    (fun _ _ => rfl) (fun _ _ _ _ => rfl)
    (fun t1 _ t2 _ s h1 h2 => hinj t1 t2 s h1 h2)
    (fun t _ s h => hpres t s h)
  have htm : tid ∈ p.tid_to_sock.map Prod.fst :=
    mem_keys_of_alookup p.tid_to_sock tid _ hmem
  obtain ⟨hb, sd2, hsd2, hcl2⟩ := hspec.2 tid htm sid sd hmem hsd hstale
  have hsd2b : alookup (p.check_request_socks pid mtid now).socks sid =
      some sd2 := hsd2
  have hsem : (p.check_request_socks pid mtid now).sem =
      p.sem + pool_stale_release p now := hspec.1
  refine ⟨hb, ?_, hsem⟩
  rw [Pool.getSock_of_alookup _ sid sd2 hsd2b]
  exact hcl2

/-- The C9 witness pool: one task (7) holding socket 4, loaned out
(idle set empty), last checked out at time 0 with a 10-second
`net_timeout`. -/
def c9pool : Pool :=
  { pool_id := 0, pid := 5, max_size := some 3, net_timeout := 10, sem := 1,
    idle := [], socks := [(4, ⟨false, 0, false, 0⟩)],
    tid_to_sock := [(7, .sock 4)], request_counter := [], next_sid := 9 }

/-- C9 witness: the sweep at time 100 unbinds task 7, closes socket 4, and
releases its permit. -/
theorem c9_check_request_socks_witness :
    (c9pool.check_request_socks 5 99 100).lookupTid 7 =
        some .noSocketYet ∧
      ((c9pool.check_request_socks 5 99 100).getSock 4).closed = true ∧
      (c9pool.check_request_socks 5 99 100).sem =
        c9pool.sem + pool_stale_release c9pool 100 :=
  c9_check_request_socks c9pool 5 99 100 3 7 4 ⟨false, 0, false, 0⟩ rfl rfl
    (by decide)
    (by
      intro t1 t2 s h1 h2
      by_cases e1 : (7 : Nat) = t1
      · by_cases e2 : (7 : Nat) = t2
        · rw [← e1, ← e2]
        · simp [Pool.lookupTid, alookup, c9pool, e2] at h2
      · simp [Pool.lookupTid, alookup, c9pool, e1] at h1)
    (by
      intro t s h
      by_cases e : (7 : Nat) = t
      · simp [Pool.lookupTid, alookup, c9pool, e] at h
        rw [← h]
        decide
      · simp [Pool.lookupTid, alookup, c9pool, e] at h)
    (by decide) (by decide) (by decide)

end MongoRS
